import Mathlib

/-
Verification development for the mbo→ho doorstroom application
(src/MBO-HBO-stroom.py).

The pandas data model is embedded shallowly:
  * a DataFrame is a `Table`: an ordered list of column names together with
    rows of positional cell values;
  * a cell value (`Val`) is missing (`na`, modelling NaN / pd.NA), an
    integer, a string, or a rational (the result of the percentage
    division);
  * label mappings (`st.session_state` dicts) are functions
    `String → Option String` (`Option.none` models an absent / cleared
    label, mirroring `dict.get` returning `None`);
  * functions that can raise a pandas exception return `Except Unit _`
    (`Except.error ()` models an uncaught exception propagating out of the
    script run), and a `None` result of the Python function is
    `Except.ok none`.

Pandas behaviours that the source relies on and that matter here are
modelled explicitly:
  * `groupby(keys)[metric].sum()` drops every row that has a missing value
    in one of the key columns (`dropna=True` default), treats a missing
    metric value as 0 in the sum, and `reset_index(name=n)` raises when the
    key list contains duplicates or `n` collides with a key name;
    grouping also raises when a label is ambiguous (duplicated column) and
    summing a non-numeric metric column raises (at the sum or at the later
    division); those raises are modelled as `none` here.  Group order is
    modelled as first-occurrence order (pandas sorts groups; none of the
    properties below depend on row order).
  * `rename(columns={old: new})` renames every column called `old` and is
    silent when `old` is absent.
  * `pd.merge(..., on=keys, how="inner")` requires every name of `keys` to
    occur exactly once in both frames (else KeyError / ambiguity error),
    suffixes clashing non-key column names with `_x`/`_y`, and keeps left
    row order.
  * `teller / noemer.replace(0, pd.NA) * 100` gives a missing value when
    the denominator is 0 or either operand is missing.
-/

/-- A cell value of a loaded table: missing (NaN / pd.NA), integer,
string, or rational (result of the percentage division). -/
inductive Val where
  | na : Val
  | int (n : Int) : Val
  | str (s : String) : Val
  | rat (q : ℚ) : Val
deriving DecidableEq, Repr

/-- A pandas DataFrame: ordered column names and positional rows. -/
structure Table where
  cols : List String
  rows : List (List Val)
deriving DecidableEq, Repr

/-- True for values a numeric (int) pandas column can hold. -/
def intOrNa : Val → Bool
  | Val.na => true
  | Val.int _ => true
  | _ => false

/-- Numeric content of a cell for summation; pandas `sum` skips NaN,
which contributes 0. -/
def intVal : Val → Int
  | Val.int n => n
  | _ => 0

/-- Index of the first column with the given name (pandas label lookup). -/
def colIdx (cols : List String) (c : String) : Option Nat :=
  match cols with
  | [] => none
  | c2 :: rest => if c2 = c then some 0 else (colIdx rest c).map (fun i => i + 1)

/-- Value of row `row` in column `c` (missing when the column is absent or
the row is short). -/
def valueAt (cols : List String) (c : String) (row : List Val) : Val :=
  match colIdx cols c with
  | some i => row.getD i Val.na
  | none => Val.na

/-- The group-by key of a row: its values in the key columns, in key order. -/
def keyOf (cols : List String) (keys : List String) (row : List Val) : List Val :=
  keys.map (fun k => valueAt cols k row)

/-- First-occurrence deduplication (the distinct group keys, in order of
first appearance). -/
def firstDedup {α : Type} [DecidableEq α] : List α → List α
  | [] => []
  | a :: l => a :: (firstDedup l).filter (fun b => b ≠ a)

/-- Rows that take part in a group-by: pandas drops every row with a
missing value in one of the group key columns. -/
def validRows (t : Table) (keys : List String) : List (List Val) :=
  t.rows.filter (fun r => Val.na ∉ keyOf t.cols keys r)

/-- The distinct group keys of a group-by, first-occurrence order. -/
def groupKeys (t : Table) (keys : List String) : List (List Val) :=
  firstDedup ((validRows t keys).map (keyOf t.cols keys))

/-- Sum of the metric column over the rows of one group (missing metric
values count as 0, as in pandas `sum`). -/
def groupSum (t : Table) (keys : List String) (metric : String) (kv : List Val) : Int :=
  (((validRows t keys).filter (fun r => keyOf t.cols keys r = kv)).map
    (fun r => intVal (valueAt t.cols metric r))).sum

/-- `t.groupby(keys)[metric].sum().reset_index(name=newName)`
(source lines 229-239).  `none` models the pandas exceptions: duplicated
key list or a key/metric label that is absent or ambiguous, a collision of
`newName` with a key name in `reset_index`, or a non-numeric metric column
(which pandas rejects at the sum or at the later division). -/
def groupbySum (t : Table) (keys : List String) (metric newName : String) : Option Table :=
  if keys ≠ [] ∧ keys.Nodup ∧ (∀ k ∈ keys, t.cols.count k = 1) ∧ t.cols.count metric = 1
      ∧ newName ∉ keys ∧ (∀ r ∈ t.rows, intOrNa (valueAt t.cols metric r) = true) then
    some { cols := keys ++ [newName],
           rows := (groupKeys t keys).map
             (fun kv => kv ++ [Val.int (groupSum t keys metric kv)]) }
  else none

/-- `df.rename(columns={oldName: newName})`: renames every column called
`oldName`, leaves the rows untouched. -/
def renameAll (t : Table) (oldName newName : String) : Table :=
  { cols := t.cols.map (fun c => if c = oldName then newName else c), rows := t.rows }

/-- The rename loops of source lines 253-259: for each pair
`(generieke, kol)`, rename `kol` to `generieke` when `kol` is a current
column. -/
def applyRenames (t : Table) (prs : List (String × String)) : Table :=
  prs.foldl (fun acc pr => if pr.2 ∈ acc.cols then renameAll acc pr.2 pr.1 else acc) t

/-- The non-key values of a right-frame row, in column order. -/
def dropOnVals (cols : List String) (onCols : List String) (row : List Val) : List Val :=
  ((cols.zip row).filter (fun p => p.1 ∉ onCols)).map (fun p => p.2)

/-- `pd.merge(l, r, on=onCols, how="inner")` (source lines 263-268):
inner join on the named key columns, left row order, `_x`/`_y` suffixes on
clashing non-key names.  `none` models the pandas exceptions when a key
name is absent or ambiguous in either frame. -/
def mergeInner (l r : Table) (onCols : List String) : Option Table :=
  if onCols ≠ [] ∧ onCols.Nodup ∧ (∀ c ∈ onCols, l.cols.count c = 1 ∧ r.cols.count c = 1) then
    some { cols :=
             l.cols.map (fun c => if c ∉ onCols ∧ c ∈ r.cols then c ++ "_x" else c)
               ++ (r.cols.filter (fun c => c ∉ onCols)).map
                   (fun c => if c ∈ l.cols then c ++ "_y" else c),
           rows := l.rows.flatMap (fun rl =>
             (r.rows.filter (fun rr =>
                 onCols.map (fun c => valueAt r.cols c rr)
                   = onCols.map (fun c => valueAt l.cols c rl))).map
               (fun rr => rl ++ dropOnVals r.cols onCols rr)) }
  else none

/-- One cell of `teller / noemer.replace(0, pd.NA) * 100`
(source lines 271-275): a zero denominator becomes missing before the
division, and a missing operand gives a missing result. -/
def pctCell (tv nv : Val) : Val :=
  let nv2 := if nv = Val.int 0 then Val.na else nv
  match tv, nv2 with
  | Val.int a, Val.int b => Val.rat ((a : ℚ) / (b : ℚ) * 100)
  | _, _ => Val.na

/-- `df_join["doorstroompercentage"] = ...` (source lines 271-275):
computes the percentage column and assigns it (append, or in-place
replacement when a column of that name already exists).  `Except.error ()`
models the pandas exceptions: an absent or ambiguous measure column, or
non-numeric measure values under the division. -/
def addDoorstroomPct (t : Table) : Except Unit Table :=
  if t.cols.count "teller_doorstromers" = 1 ∧ t.cols.count "noemer_gediplomeerden" = 1
      ∧ (∀ r ∈ t.rows, intOrNa (valueAt t.cols "teller_doorstromers" r) = true
          ∧ intOrNa (valueAt t.cols "noemer_gediplomeerden" r) = true) then
    let pcts := t.rows.map (fun r =>
      pctCell (valueAt t.cols "teller_doorstromers" r)
        (valueAt t.cols "noemer_gediplomeerden" r))
    if t.cols.count "doorstroompercentage" = 0 then
      Except.ok { cols := t.cols ++ ["doorstroompercentage"],
                  rows := (t.rows.zip pcts).map (fun p => p.1 ++ [p.2]) }
    else if t.cols.count "doorstroompercentage" = 1 then
      Except.ok { cols := t.cols,
                  rows := (t.rows.zip pcts).map (fun p =>
                    match colIdx t.cols "doorstroompercentage" with
                    | some i => p.1.set i p.2
                    | none => p.1) }
    else Except.error ()
  else Except.error ()

/-- The join columns resolved from labels (source lines 210-218): for each
label, the mapped column when it is set, non-empty (Python truthiness) and
present in the table; unresolved labels are skipped. -/
def resolveJoinCols (mp : String → Option String) (cols : List String)
    (labels : List String) : List String :=
  labels.filterMap (fun lbl =>
    match mp lbl with
    | some kol => if kol ≠ "" ∧ kol ∈ cols then some kol else none
    | none => none)

/-- Pointwise zip of four lists, truncating at the shortest (Python
`zip(a, b, c, d)`, source lines 245-247). -/
def zip4 {α β γ δ : Type} : List α → List β → List γ → List δ → List (α × β × γ × δ)
  | a :: la, b :: lb, c :: lc, d :: ld => (a, b, c, d) :: zip4 la lb lc ld
  | _, _, _, _ => []

/-- Source lines 244-250: `zip` of the full label lists with the
(possibly shorter) resolved column lists — truncating at the shortest —
keeping `(lbl_t, kol_t, kol_n)`; the generic name is the teller-side
label. -/
def generiekeLabels (join_labels_teller join_labels_noemer
    join_cols_teller join_cols_noemer : List String) : List (String × String × String) :=
  (zip4 join_labels_teller join_labels_noemer join_cols_teller join_cols_noemer).map
    (fun q => (q.1, q.2.2.1, q.2.2.2))

/-- Source lines 244-277 given the two grouped frames: rename each side's
resolved key columns to the generic labels (lines 253-259), inner-merge on
the generic labels (lines 262-268) and derive the percentage column
(lines 271-275). -/
def combineJoinStage (t_grouped n_grouped : Table)
    (join_labels_teller join_labels_noemer join_cols_teller join_cols_noemer : List String) :
    Except Unit (Option Table) :=
  match mergeInner
      (applyRenames t_grouped
        ((generiekeLabels join_labels_teller join_labels_noemer
            join_cols_teller join_cols_noemer).map (fun g => (g.1, g.2.1))))
      (applyRenames n_grouped
        ((generiekeLabels join_labels_teller join_labels_noemer
            join_cols_teller join_cols_noemer).map (fun g => (g.1, g.2.2))))
      ((generiekeLabels join_labels_teller join_labels_noemer
          join_cols_teller join_cols_noemer).map (fun g => g.1)) with
  | some df_join => (addDoorstroomPct df_join).map (fun j => some j)
  | none => Except.error ()

/-- `combine_teller_noemer` (source lines 173-277).
`Except.ok none` is the function returning `None` ("cannot combine"),
`Except.ok (some t)` a returned DataFrame, `Except.error ()` an uncaught
pandas exception. -/
def combine_teller_noemer (df_teller df_noemer : Table)
    (map_teller map_noemer : String → Option String)
    (join_labels_teller join_labels_noemer : List String) : Except Unit (Option Table) :=
  -- lines 198-204: resolve the metric columns; `not col` is Python
  -- truthiness, so an unset label and an empty-string column agree
  if (map_teller "aantal_ho_instromers").getD "" = ""
      ∨ (map_noemer "aantal_mbo_gediplomeerden").getD "" = "" then Except.ok none
  else if (map_teller "aantal_ho_instromers").getD "" ∉ df_teller.cols
      ∨ (map_noemer "aantal_mbo_gediplomeerden").getD "" ∉ df_noemer.cols then Except.ok none
  -- lines 207-222: resolve the join keys per side; fail on an empty or
  -- unbalanced resolution
  else if (resolveJoinCols map_teller df_teller.cols join_labels_teller).length = 0
      ∨ (resolveJoinCols map_teller df_teller.cols join_labels_teller).length
        ≠ (resolveJoinCols map_noemer df_noemer.cols join_labels_noemer).length then
    Except.ok none
  else
    -- lines 229-239: aggregate both sides, then lines 244-277
    match groupbySum df_teller (resolveJoinCols map_teller df_teller.cols join_labels_teller)
            ((map_teller "aantal_ho_instromers").getD "") "teller_doorstromers",
          groupbySum df_noemer (resolveJoinCols map_noemer df_noemer.cols join_labels_noemer)
            ((map_noemer "aantal_mbo_gediplomeerden").getD "") "noemer_gediplomeerden" with
    | some t_grouped, some n_grouped =>
        combineJoinStage t_grouped n_grouped join_labels_teller join_labels_noemer
          (resolveJoinCols map_teller df_teller.cols join_labels_teller)
          (resolveJoinCols map_noemer df_noemer.cols join_labels_noemer)
    | _, _ => Except.error ()

/-- Character-list infix test, for Python's `in` on strings. -/
def charsContain (sub : List Char) : List Char → Bool
  | [] => sub.isEmpty
  | c :: rest => sub.isPrefixOf (c :: rest) || charsContain sub rest

/-- Python `sub in hay` for strings. -/
def strIn (sub hay : String) : Bool :=
  charsContain sub.data hay.data

/-- Python `s.lower()` (ASCII lowering suffices for the rule keywords). -/
def lowerStr (s : String) : String :=
  ⟨s.data.map Char.toLower⟩

/-- Python `s.startswith(pre)`. -/
def strStarts (s pre : String) : Bool :=
  pre.data.isPrefixOf s.data

/-- Python `s.endswith(suf)`. -/
def strEnds (s suf : String) : Bool :=
  suf.data.isSuffixOf s.data

/-- The per-column rule chain of `suggest_default` (source lines 58-76):
the column is returned as soon as one of the six conditions holds, so a
column matches exactly when their disjunction holds. -/
def ruleHit (label c : String) : Bool :=
  let label_lower := lowerStr label
  let c_lower := lowerStr c
  strIn label_lower c_lower
    || (label = "jaar" && (strIn "jaar" c_lower || strIn "peil" c_lower))
    || (strEnds label "_instelling" && strIn "brin" c_lower)
    || (strEnds label "_sector"
        && (strIn "sector" c_lower || strIn "sectorkamer" c_lower || strIn "domein" c_lower))
    || (strEnds label "_regio" && strIn "regio" c_lower)
    || (strStarts label "aantal"
        && (strIn "aantal" c_lower || strIn "stud" c_lower || strIn "count" c_lower))

/-- `suggest_default` (source lines 53-77): first column, in table column
order, hit by one of the rules; `none` when no rule matches any column. -/
def suggest_default (label : String) (cols : List String) : Option String :=
  match cols with
  | [] => none
  | c :: rest => if ruleHit label c then some c else suggest_default label rest

/-- Insertion step of the sort used for the multiselect options. -/
def insertVal (a : Val) : List Val → List Val
  | [] => [a]
  | b :: l => if valLE a b then a :: b :: l else b :: insertVal a l
where
  /-- A total comparison on cell values; on the homogeneous columns the
  app sorts it agrees with Python `sorted`. -/
  valLE : Val → Val → Bool
    | Val.na, _ => true
    | _, Val.na => false
    | Val.int m, Val.int n => m ≤ n
    | Val.int _, _ => true
    | _, Val.int _ => false
    | Val.rat p, Val.rat q => p ≤ q
    | Val.rat _, _ => true
    | _, Val.rat _ => false
    | Val.str s, Val.str t => !(compare s t == Ordering.gt)

/-- `sorted(...)` on cell values (insertion sort). -/
def sortVals : List Val → List Val
  | [] => []
  | a :: l => insertVal a (sortVals l)

/-- `sorted(df[kolomnaam].dropna().unique().tolist())` (source line 161):
the multiselect options, also its default selection. -/
def uniekeValues (df : Table) (kolomnaam : String) : List Val :=
  sortVals (firstDedup ((df.rows.map (fun r => valueAt df.cols kolomnaam r)).filter
    (fun v => v ≠ Val.na)))

/-- `apply_filter` (source lines 153-170), with the user's multiselect
choice `selectie` as an argument (the UI draws it from `uniekeValues`,
defaulting to all of them): absent column or empty selection leave the
table unchanged, otherwise rows are kept whose value is selected
(`isin`; pandas `isin` also matches missing against missing). -/
def apply_filter (df : Table) (kolomnaam : String) (selectie : List Val) : Table :=
  if kolomnaam ∉ df.cols then df
  else if selectie ≠ [] then
    { cols := df.cols,
      rows := df.rows.filter (fun r => valueAt df.cols kolomnaam r ∈ selectie) }
  else df

/-- The encodings a CSV read can be attempted with. -/
inductive Enc where
  | utf8 | latin1 | utf16 | utf16le | utf16be
deriving DecidableEq, Repr

/-- The delimiters a CSV read can be attempted with. -/
inductive Delim where
  | comma | semicolon | tab
deriving DecidableEq, Repr

/-- The two caught `pd.read_csv` failures: a decoding error and a parser
error (any other exception is outside the model). -/
inductive PErr where
  | unicodeError | parserError
deriving DecidableEq, Repr

/-- Loading of the teller file (source lines 299-305), abstracted over the
outcome `readCsv` of `pd.read_csv` per encoding/delimiter: utf-8 with
comma first; on a decoding error one retry with latin-1 and comma, on a
parser error one retry with semicolon (python engine, utf-8); an error of
the retry is uncaught.  (The real code also fails to rewind the upload
between attempts; byte-level IO is outside the model.) -/
def load_teller (readCsv : Enc → Delim → Except PErr Table) : Except PErr Table :=
  match readCsv Enc.utf8 Delim.comma with
  | Except.ok t => Except.ok t
  | Except.error PErr.unicodeError => readCsv Enc.latin1 Delim.comma
  | Except.error PErr.parserError => readCsv Enc.utf8 Delim.semicolon

/-- The encodings tried for the noemer file, in order (source line 310). -/
def encsToTry : List Enc :=
  [Enc.utf8, Enc.latin1, Enc.utf16, Enc.utf16le, Enc.utf16be]

/-- The delimiters tried for the noemer file, in order (source line 311). -/
def sepsToTry : List Delim :=
  [Delim.comma, Delim.semicolon, Delim.tab]

/-- The encoding × delimiter combinations in trial order (outer loop over
encodings, inner loop over delimiters). -/
def encSepCombos : List (Enc × Delim) :=
  encsToTry.flatMap (fun e => sepsToTry.map (fun s => (e, s)))

/-- One iteration of the noemer loop (source lines 312-320): when the
`tried` flag is set (a table was already parsed) the combination is
skipped, otherwise the read is attempted and both caught errors leave the
state unchanged. -/
def loadStep (readCsv : Enc → Delim → Except PErr Table)
    (acc : Option Table) (p : Enc × Delim) : Option Table :=
  match acc with
  | some t => some t
  | none => (readCsv p.1 p.2).toOption

/-- Loading of the noemer file (source lines 307-327): the nested loop
with the `tried` flag; once a combination succeeds all later ones are
skipped, and when every combination fails no table is produced (the
`st.error` branch). -/
def load_noemer (readCsv : Enc → Delim → Except PErr Table) : Option Table :=
  encSepCombos.foldl (loadStep readCsv) none

/-- Modelled from the spec (§6): the loader the spec describes for both
files — try the cross of common encodings and delimiters in a
deterministic order and accept the first combination that parses. -/
def specLoaderFirstSuccess (readCsv : Enc → Delim → Except PErr Table) : Option Table :=
  (encSepCombos.filterMap (fun p => (readCsv p.1 p.2).toOption)).head?

/-- The three derived column names of a joined table. -/
def reservedCols : List String :=
  ["teller_doorstromers", "noemer_gediplomeerden", "doorstroompercentage"]

/-- The canonical join-key columns of a joined table: its columns minus
the derived measure/percentage columns. -/
def joinKeyCols (t : Table) : List String :=
  t.cols.filter (fun c => c ∉ reservedCols)

/-- Sum of a numeric column over all rows of a table (missing counts 0),
as in the KPI totals of source lines 532-543 and 553-559. -/
def totalInt (t : Table) (c : String) : Int :=
  (t.rows.map (fun r => intVal (valueAt t.cols c r))).sum

/-- The ratio-from-sums percentage: missing for a zero denominator
(source lines 560-564 recompute it this way after regrouping). -/
def pct100 (tl nm : Int) : Val :=
  if nm = 0 then Val.na else Val.rat ((100 : ℚ) * tl / nm)

/-- The naive mean of the per-row percentages of a joined table (missing
rows skipped, as pandas `mean` would); the spec warns this does NOT
commute with regrouping. -/
def naiveAvgPct (t : Table) : Option ℚ :=
  let qs := t.rows.filterMap (fun r =>
    match valueAt t.cols "doorstroompercentage" r with
    | Val.rat q => some q
    | _ => none)
  if qs.isEmpty then none else some (qs.sum / qs.length)

/-- Restriction of a table to the rows whose values in the columns
`colsSel` equal `v` (the "subgroup" of a grouping, as a row filter). -/
def restrictRows (t : Table) (colsSel : List String) (v : List Val) : Table :=
  { cols := t.cols,
    rows := t.rows.filter (fun r => colsSel.map (fun c => valueAt t.cols c r) = v) }

/-- The failure conditions `combine_teller_noemer` answers with `None`:
a metric label unset (or Python-falsy) or absent from its table, an empty
resolved join-key list, or differing resolved join-key counts. -/
def combineFails (df_teller df_noemer : Table)
    (map_teller map_noemer : String → Option String)
    (join_labels_teller join_labels_noemer : List String) : Prop :=
  (map_teller "aantal_ho_instromers").getD "" = ""
    ∨ (map_noemer "aantal_mbo_gediplomeerden").getD "" = ""
    ∨ (map_teller "aantal_ho_instromers").getD "" ∉ df_teller.cols
    ∨ (map_noemer "aantal_mbo_gediplomeerden").getD "" ∉ df_noemer.cols
    ∨ resolveJoinCols map_teller df_teller.cols join_labels_teller = []
    ∨ (resolveJoinCols map_teller df_teller.cols join_labels_teller).length
        ≠ (resolveJoinCols map_noemer df_noemer.cols join_labels_noemer).length

instance combineFailsDecidable (df_teller df_noemer : Table)
    (map_teller map_noemer : String → Option String)
    (join_labels_teller join_labels_noemer : List String) :
    Decidable (combineFails df_teller df_noemer map_teller map_noemer
      join_labels_teller join_labels_noemer) := by
  unfold combineFails; infer_instance

/-- Well-formedness of a `combine_teller_noemer` call: duplicate-free
column names, duplicate-free resolved key lists, numeric metric columns,
and no accidental collisions between resolved column names, canonical
label names and the reserved derived names (the regime in which the
pandas pipeline runs without an exception; the app's fixed label
vocabulary and DUO column names satisfy it). -/
def cleanCombine (df_teller df_noemer : Table)
    (map_teller map_noemer : String → Option String)
    (join_labels_teller join_labels_noemer : List String) : Prop :=
  df_teller.cols.Nodup ∧ df_noemer.cols.Nodup
    ∧ (resolveJoinCols map_teller df_teller.cols join_labels_teller).Nodup
    ∧ (resolveJoinCols map_noemer df_noemer.cols join_labels_noemer).Nodup
    ∧ (join_labels_teller.take
        (resolveJoinCols map_teller df_teller.cols join_labels_teller).length).Nodup
    ∧ (∀ r ∈ df_teller.rows,
        intOrNa (valueAt df_teller.cols ((map_teller "aantal_ho_instromers").getD "") r) = true)
    ∧ (∀ r ∈ df_noemer.rows,
        intOrNa (valueAt df_noemer.cols ((map_noemer "aantal_mbo_gediplomeerden").getD "") r) = true)
    ∧ (∀ l ∈ join_labels_teller.take
        (resolveJoinCols map_teller df_teller.cols join_labels_teller).length,
        l ∉ reservedCols)
    ∧ "teller_doorstromers" ∉ resolveJoinCols map_teller df_teller.cols join_labels_teller
    ∧ "noemer_gediplomeerden" ∉ resolveJoinCols map_noemer df_noemer.cols join_labels_noemer
    ∧ ((join_labels_teller.take
          (resolveJoinCols map_teller df_teller.cols join_labels_teller).length).zip
        (resolveJoinCols map_teller df_teller.cols join_labels_teller)).Pairwise
        (fun p q => p.1 ≠ q.2 ∧ p.2 ≠ q.1)
    ∧ ((join_labels_teller.take
          (resolveJoinCols map_teller df_teller.cols join_labels_teller).length).zip
        (resolveJoinCols map_noemer df_noemer.cols join_labels_noemer)).Pairwise
        (fun p q => p.1 ≠ q.2 ∧ p.2 ≠ q.1)

instance cleanCombineDecidable (df_teller df_noemer : Table)
    (map_teller map_noemer : String → Option String)
    (join_labels_teller join_labels_noemer : List String) :
    Decidable (cleanCombine df_teller df_noemer map_teller map_noemer
      join_labels_teller join_labels_noemer) := by
  unfold cleanCombine; infer_instance

/-- Example teller table: ho-instroom per jaar en mbo-sector. -/
def exT : Table :=
  { cols := ["Jaar", "Sector", "Aantal"],
    rows := [[Val.int 2021, Val.str "Zorg", Val.int 50],
             [Val.int 2021, Val.str "Techniek", Val.int 30],
             [Val.int 2020, Val.str "Zorg", Val.int 10]] }

/-- Example noemer table: mbo-gediplomeerden per peiljaar en sector; the
Techniek group sums to 0 and 2020 is absent. -/
def exN : Table :=
  { cols := ["Peiljaar", "Sectornaam", "Gedipl"],
    rows := [[Val.int 2021, Val.str "Zorg", Val.int 200],
             [Val.int 2021, Val.str "Techniek", Val.int 0],
             [Val.int 2021, Val.str "Zorg", Val.int 40]] }

/-- Example teller mapping. -/
def mapT : String → Option String := fun l =>
  if l = "jaar" then some "Jaar"
  else if l = "sector_mbo" then some "Sector"
  else if l = "aantal_ho_instromers" then some "Aantal"
  else none

/-- Example noemer mapping. -/
def mapN : String → Option String := fun l =>
  if l = "jaar" then some "Peiljaar"
  else if l = "sector_mbo" then some "Sectornaam"
  else if l = "aantal_mbo_gediplomeerden" then some "Gedipl"
  else none

/-- Example join-label selection. -/
def jlEx : List String := ["jaar", "sector_mbo"]

/-- C1 counterexample data: the label `jaar` is unmapped on both sides,
`sector_mbo` resolves on both; the resolved lists have equal length 1, so
the join proceeds and the sector columns get the canonical name `jaar`. -/
def dfC1T : Table := { cols := ["Y", "T"], rows := [[Val.int 1, Val.int 5]] }

/-- C1 counterexample, noemer side. -/
def dfC1N : Table := { cols := ["Z", "N"], rows := [[Val.int 1, Val.int 10]] }

/-- C1 counterexample teller mapping (no `jaar`). -/
def mapC1T : String → Option String := fun l =>
  if l = "sector_mbo" then some "Y"
  else if l = "aantal_ho_instromers" then some "T"
  else none

/-- C1 counterexample noemer mapping (no `jaar`). -/
def mapC1N : String → Option String := fun l =>
  if l = "sector_mbo" then some "Z"
  else if l = "aantal_mbo_gediplomeerden" then some "N"
  else none

/-- C2 counterexample teller mapping: `jaar` mapped, `sector_mbo` not. -/
def mapC2T : String → Option String := fun l =>
  if l = "jaar" then some "Y"
  else if l = "aantal_ho_instromers" then some "T"
  else none

/-- C2 counterexample noemer mapping: `sector_mbo` mapped, `jaar` not. -/
def mapC2N : String → Option String := fun l =>
  if l = "sector_mbo" then some "Z"
  else if l = "aantal_mbo_gediplomeerden" then some "N"
  else none

/-- C3 counterexample teller mapping: two join labels point to the same
column `Jaar` (legal per the data model, no uniqueness invariant). -/
def mapC3T : String → Option String := fun l =>
  if l = "jaar" then some "Jaar"
  else if l = "sector_mbo" then some "Jaar"
  else if l = "aantal_ho_instromers" then some "Aantal"
  else none

/-- C7 counterexample: a file readable only as UTF-16 (any delimiter);
every other encoding raises a decoding error. -/
def readC7 : Enc → Delim → Except PErr Table := fun e _ =>
  if e = Enc.utf16 then Except.ok dfC1T else Except.error PErr.unicodeError

/-- A read outcome whose first attempt raises a decoding error; used to
exercise the latin-1 fallback of the teller loader. -/
def readC7b : Enc → Delim → Except PErr Table := fun e _ =>
  if e = Enc.latin1 then Except.ok dfC1N else Except.error PErr.unicodeError

/-- C10 counterexample: a one-column table whose only values are missing;
the distinct non-missing value set is empty, so the default filter
selection is empty and the filter is the identity. -/
def dfC10 : Table := { cols := ["c"], rows := [[Val.na]] }

/-- C10 witness table: a column with one missing and one present value. -/
def dfC10b : Table := { cols := ["c"], rows := [[Val.na], [Val.int 1], [Val.na], [Val.int 2]] }


/-- The joined table combine produces for the C1/C2 counterexample data:
one canonical key column, named `jaar` even though it carries the
sector-mapped columns. -/
def JC1 : Table :=
  { cols := ["jaar", "teller_doorstromers", "noemer_gediplomeerden", "doorstroompercentage"],
    rows := [[Val.int 1, Val.int 5, Val.int 10,
              Val.rat (((5 : Int) : ℚ) / ((10 : Int) : ℚ) * 100)]] }

/-- The joined table combine produces on `exT`/`exN` with the standard
mappings: Zorg 2021 has 50 of 240 (percentage 125/6), Techniek 2021 has a
zero denominator (missing percentage), 2020 is dropped by the inner
join. -/
def JEx : Table :=
  { cols := ["jaar", "sector_mbo", "teller_doorstromers", "noemer_gediplomeerden",
             "doorstroompercentage"],
    rows := [[Val.int 2021, Val.str "Zorg", Val.int 50, Val.int 240,
              Val.rat (((50 : Int) : ℚ) / ((240 : Int) : ℚ) * 100)],
             [Val.int 2021, Val.str "Techniek", Val.int 30, Val.int 0, Val.na]] }

/-- A noemer table sharing no key combination with `dfC1T` (key 2
against key 1). -/
def dfC6N : Table := { cols := ["Z", "N"], rows := [[Val.int 2, Val.int 10]] }

/-- The empty-but-well-formed joined table combine produces for
`dfC1T` against `dfC6N`. -/
def JC6 : Table :=
  { cols := ["jaar", "teller_doorstromers", "noemer_gediplomeerden", "doorstroompercentage"],
    rows := [] }

/-! ### Generic list lemmas -/

theorem mem_firstDedup {α : Type} [DecidableEq α] (l : List α) (x : α) :
    x ∈ firstDedup l ↔ x ∈ l := by
  induction l with
  | nil => simp [firstDedup]
  | cons a l ih =>
      by_cases hxa : x = a
      · subst hxa; simp [firstDedup]
      · simp [firstDedup, List.mem_filter, hxa, ih]

theorem nodup_firstDedup {α : Type} [DecidableEq α] (l : List α) : (firstDedup l).Nodup := by
  induction l with
  | nil => simp [firstDedup]
  | cons a l ih =>
      refine List.Nodup.cons ?_ (List.Nodup.filter _ ih)
      intro hmem
      rcases List.mem_filter.mp hmem with ⟨_, hne⟩
      simp at hne

theorem firstDedup_filter {α : Type} [DecidableEq α] (p : α → Bool) (l : List α) :
    firstDedup (l.filter p) = (firstDedup l).filter p := by
  induction l with
  | nil => simp [firstDedup]
  | cons a l ih =>
      by_cases hpa : p a
      · rw [List.filter_cons_of_pos hpa]
        show a :: (firstDedup (l.filter p)).filter (fun b => b ≠ a)
            = (a :: (firstDedup l).filter (fun b => b ≠ a)).filter p
        rw [List.filter_cons_of_pos hpa, ih, List.filter_comm]
      · rw [List.filter_cons_of_neg hpa]
        show firstDedup (l.filter p)
            = (a :: (firstDedup l).filter (fun b => b ≠ a)).filter p
        rw [List.filter_cons_of_neg hpa, ih, List.filter_comm]
        refine (List.filter_eq_self.mpr ?_).symm
        intro b hb
        rcases List.mem_filter.mp hb with ⟨_, hpb⟩
        simp only [decide_eq_true_eq]
        intro hba
        subst hba
        simp [hpa] at hpb

theorem length_filter_lt {α : Type} (p : α → Bool) (l : List α) (a : α)
    (ha : a ∈ l) (hpa : p a = false) : (l.filter p).length < l.length := by
  induction l with
  | nil => cases ha
  | cons b l ih =>
      rcases List.mem_cons.mp ha with hb | hb
      · subst hb
        rw [List.filter_cons_of_neg (by simp [hpa])]
        exact Nat.lt_succ_of_le (List.length_filter_le p l)
      · by_cases hpb : p b
        · rw [List.filter_cons_of_pos hpb]
          exact Nat.succ_lt_succ (ih hb)
        · rw [List.filter_cons_of_neg (by simpa using hpb)]
          exact Nat.lt_succ_of_lt (ih hb)

theorem filter_map_comm {α β : Type} (f : α → β) (p : β → Bool) (l : List α) :
    (l.filter (fun x => p (f x))).map f = (l.map f).filter p := by
  induction l with
  | nil => rfl
  | cons a l ih =>
      by_cases hpa : p (f a)
      · simp only [List.map_cons, List.filter_cons, hpa, if_true, List.map_cons, ih]
      · simp only [List.map_cons, List.filter_cons, hpa, if_false, ih, Bool.false_eq_true,
          ite_false]

theorem flatMap_single_filter {α β : Type} (l : List α) (p : α → Bool) (g : α → β) :
    l.flatMap (fun a => if p a then [g a] else []) = (l.filter p).map g := by
  induction l with
  | nil => rfl
  | cons a l ih =>
      by_cases hpa : p a
      · rw [List.flatMap_cons, if_pos hpa, List.filter_cons_of_pos hpa, List.map_cons, ih]
        rfl
      · rw [List.flatMap_cons, if_neg hpa, List.filter_cons_of_neg (by simpa using hpa), ih]
        rfl

theorem filter_eq_single_of_nodup {α : Type} [DecidableEq α] (l : List α) (hd : l.Nodup)
    (a : α) : l.filter (fun b => b = a) = if a ∈ l then [a] else [] := by
  induction l with
  | nil => simp
  | cons b l ih =>
      rcases List.nodup_cons.mp hd with ⟨hbl, hl⟩
      by_cases hba : b = a
      · subst hba
        rw [List.filter_cons_of_pos (by simp), ih hl, if_neg hbl, if_pos (by simp)]
      · rw [List.filter_cons_of_neg (by simpa using hba), ih hl]
        by_cases hal : a ∈ l
        · rw [if_pos hal, if_pos (List.mem_cons_of_mem _ hal)]
        · have hnb : a ∉ b :: l := by
            intro hmem
            rcases List.mem_cons.mp hmem with h | h
            · exact hba h.symm
            · exact hal h
          rw [if_neg hal, if_neg hnb]


/-! ### Column lookup lemmas -/

theorem colIdx_eq_none_iff (cols : List String) (c : String) :
    colIdx cols c = none ↔ c ∉ cols := by
  induction cols with
  | nil => simp [colIdx]
  | cons c2 rest ih =>
      by_cases h : c2 = c
      · subst h; simp [colIdx]
      · rw [colIdx, if_neg h]
        simp only [Option.map_eq_none', ih, List.mem_cons]
        constructor
        · intro hn hor
          rcases hor with h2 | h2
          · exact h h2.symm
          · exact hn h2
        · intro hn h2
          exact hn (Or.inr h2)

theorem colIdx_append_of_mem_nodup (L rest : List String) (i : Nat) (hi : i < L.length)
    (hd : L.Nodup) : colIdx (L ++ rest) (L.get ⟨i, hi⟩) = some i := by
  induction L generalizing i with
  | nil => cases hi
  | cons a L ih =>
      rcases List.nodup_cons.mp hd with ⟨haL, hL⟩
      cases i with
      | zero =>
          show colIdx (a :: (L ++ rest)) a = some 0
          rw [colIdx, if_pos rfl]
      | succ j =>
          have hj : j < L.length := Nat.lt_of_succ_lt_succ hi
          show colIdx (a :: (L ++ rest)) (L.get ⟨j, hj⟩) = some (j + 1)
          have hne : a ≠ L.get ⟨j, hj⟩ := by
            intro heq
            exact haL (heq ▸ List.get_mem L j hj)
          rw [colIdx, if_neg hne, ih j hj hL]
          rfl

theorem valueAt_cons_ne (a c : String) (X : List String) (v : Val) (Y : List Val)
    (h : a ≠ c) : valueAt (a :: X) c (v :: Y) = valueAt X c Y := by
  unfold valueAt
  rw [colIdx, if_neg h]
  cases colIdx X c <;> simp

theorem valueAt_pre (L rest : List String) (kv rest2 : List Val) (i : Nat)
    (hi : i < L.length) (hd : L.Nodup) (hlen : kv.length = L.length) :
    valueAt (L ++ rest) (L.get ⟨i, hi⟩) (kv ++ rest2) = kv.getD i Val.na := by
  unfold valueAt
  rw [colIdx_append_of_mem_nodup L rest i hi hd]
  exact List.getD_append kv rest2 Val.na i (by omega)

theorem keyRow_pre (L : List String) : ∀ (rest : List String) (kv rest2 : List Val),
    L.Nodup → kv.length = L.length →
    L.map (fun c => valueAt (L ++ rest) c (kv ++ rest2)) = kv := by
  induction L with
  | nil =>
      intro rest kv rest2 _ hlen
      simp [List.length_eq_zero.mp (by simpa using hlen)]
  | cons a L ih =>
      intro rest kv rest2 hd hlen
      rcases List.nodup_cons.mp hd with ⟨haL, hL⟩
      cases kv with
      | nil => simp at hlen
      | cons v kv =>
          have hlen' : kv.length = L.length := by simpa using hlen
          simp only [List.map_cons, List.cons_append]
          congr 1
          · show valueAt (a :: (L ++ rest)) a (v :: (kv ++ rest2)) = v
            unfold valueAt
            rw [colIdx, if_pos rfl]
            rfl
          · have hcong : ∀ c ∈ L, valueAt (a :: (L ++ rest)) c (v :: (kv ++ rest2))
                = valueAt (L ++ rest) c (kv ++ rest2) := by
              intro c hc
              exact valueAt_cons_ne a c _ v _ (fun h => haL (h ▸ hc))
            rw [List.map_congr_left hcong, ih rest kv rest2 hL hlen']

theorem valueAt_append_not_mem (L : List String) : ∀ (rest : List String) (kv rest2 : List Val)
    (c : String), c ∉ L → kv.length = L.length →
    valueAt (L ++ rest) c (kv ++ rest2) = valueAt rest c rest2 := by
  induction L with
  | nil =>
      intro rest kv rest2 c _ hlen
      simp [List.length_eq_zero.mp (by simpa using hlen)]
  | cons a L ih =>
      intro rest kv rest2 c hc hlen
      cases kv with
      | nil => simp at hlen
      | cons v kv =>
          have hlen' : kv.length = L.length := by simpa using hlen
          have hac : a ≠ c := by
            intro h
            exact hc (by simp [h])
          show valueAt (a :: (L ++ rest)) c (v :: (kv ++ rest2)) = valueAt rest c rest2
          rw [valueAt_cons_ne a c _ v _ hac]
          exact ih rest kv rest2 c (fun hm => hc (List.mem_cons_of_mem a hm)) hlen'

/-! ### zip4 projections -/

theorem zip4_map_proj1 (lc : List String) : ∀ (la lb ld : List String),
    lc.length = ld.length → lc.length ≤ la.length → lc.length ≤ lb.length →
    (zip4 la lb lc ld).map (fun q => q.1) = la.take lc.length := by
  induction lc with
  | nil =>
      intro la lb ld _ _ _
      cases la <;> cases lb <;> cases ld <;> simp [zip4]
  | cons c lc ih =>
      intro la lb ld hcd hca hcb
      cases la with
      | nil => simp at hca
      | cons a la =>
        cases lb with
        | nil => simp at hcb
        | cons b lb =>
          cases ld with
          | nil => simp at hcd
          | cons d ld =>
              simp only [zip4, List.map_cons, List.length_cons, List.take_succ_cons]
              rw [ih la lb ld (by simpa using hcd) (by simpa using hca) (by simpa using hcb)]

theorem zip4_map_proj13 (lc : List String) : ∀ (la lb ld : List String),
    lc.length = ld.length → lc.length ≤ la.length → lc.length ≤ lb.length →
    (zip4 la lb lc ld).map (fun q => (q.1, q.2.2.1)) = (la.take lc.length).zip lc := by
  induction lc with
  | nil =>
      intro la lb ld _ _ _
      cases la <;> cases lb <;> cases ld <;> simp [zip4]
  | cons c lc ih =>
      intro la lb ld hcd hca hcb
      cases la with
      | nil => simp at hca
      | cons a la =>
        cases lb with
        | nil => simp at hcb
        | cons b lb =>
          cases ld with
          | nil => simp at hcd
          | cons d ld =>
              simp only [zip4, List.map_cons, List.length_cons, List.take_succ_cons,
                List.zip_cons_cons]
              rw [ih la lb ld (by simpa using hcd) (by simpa using hca) (by simpa using hcb)]

theorem zip4_map_proj14 (lc : List String) : ∀ (la lb ld : List String),
    lc.length = ld.length → lc.length ≤ la.length → lc.length ≤ lb.length →
    (zip4 la lb lc ld).map (fun q => (q.1, q.2.2.2)) = (la.take lc.length).zip ld := by
  induction lc with
  | nil =>
      intro la lb ld hcd _ _
      have : ld = [] := List.length_eq_zero.mp (by simpa using hcd.symm)
      subst this
      cases la <;> cases lb <;> simp [zip4]
  | cons c lc ih =>
      intro la lb ld hcd hca hcb
      cases la with
      | nil => simp at hca
      | cons a la =>
        cases lb with
        | nil => simp at hcb
        | cons b lb =>
          cases ld with
          | nil => simp at hcd
          | cons d ld =>
              simp only [zip4, List.map_cons, List.length_cons, List.take_succ_cons,
                List.zip_cons_cons]
              rw [ih la lb ld (by simpa using hcd) (by simpa using hca) (by simpa using hcb)]

/-! ### Rename fold -/

theorem map_replace_of_not_mem (l : List String) (k g : String) (h : k ∉ l) :
    l.map (fun c => if c = k then g else c) = l := by
  induction l with
  | nil => rfl
  | cons a l ih =>
      have hak : ¬(a = k) := by
        intro h2
        exact h (by simp [h2])
      rw [List.map_cons, if_neg hak, ih (fun hm => h (List.mem_cons_of_mem a hm))]

theorem applyRenames_clean (gens : List String) : ∀ (kols pre suf : List String)
    (rows : List (List Val)),
    gens.length = kols.length → kols.Nodup →
    (∀ x ∈ kols, x ∉ pre) → (∀ x ∈ kols, x ∉ suf) → (∀ x ∈ gens, x ∉ suf) →
    (gens.zip kols).Pairwise (fun p q => p.1 ≠ q.2 ∧ p.2 ≠ q.1) →
    applyRenames { cols := pre ++ kols ++ suf, rows := rows } (gens.zip kols)
      = { cols := pre ++ gens ++ suf, rows := rows } := by
  induction gens with
  | nil =>
      intro kols pre suf rows hlen _ _ _ _ _
      have hk : kols = [] := List.length_eq_zero.mp (by simpa using hlen.symm)
      subst hk
      rfl
  | cons g gens ih =>
      intro kols pre suf rows hlen hnd hpre hsuf hgsuf hpw
      cases kols with
      | nil => simp at hlen
      | cons k kols =>
          rcases List.nodup_cons.mp hnd with ⟨hkk, hknd⟩
          rcases List.pairwise_cons.mp hpw with ⟨hhead, htail⟩
          have hlen' : gens.length = kols.length := by simpa using hlen
          have hkmem : k ∈ pre ++ (k :: kols) ++ suf := by simp
          show applyRenames
              (if k ∈ (pre ++ (k :: kols) ++ suf) then
                renameAll { cols := pre ++ (k :: kols) ++ suf, rows := rows } k g
              else { cols := pre ++ (k :: kols) ++ suf, rows := rows }) (gens.zip kols)
            = { cols := pre ++ (g :: gens) ++ suf, rows := rows }
          rw [if_pos hkmem]
          have hmap : renameAll { cols := pre ++ (k :: kols) ++ suf, rows := rows } k g
              = { cols := pre ++ (g :: kols) ++ suf, rows := rows } := by
            unfold renameAll
            congr 1
            rw [List.map_append, List.map_append, List.map_cons, if_pos rfl]
            rw [map_replace_of_not_mem pre k g (fun hm => hpre k (by simp) hm)]
            rw [map_replace_of_not_mem kols k g hkk]
            rw [map_replace_of_not_mem suf k g (fun hm => hsuf k (by simp) hm)]
          rw [hmap]
          have hre : pre ++ (g :: kols) ++ suf = (pre ++ [g]) ++ kols ++ suf := by
            simp [List.append_assoc]
          have hre2 : pre ++ (g :: gens) ++ suf = (pre ++ [g]) ++ gens ++ suf := by
            simp [List.append_assoc]
          rw [hre, hre2]
          refine ih kols (pre ++ [g]) suf rows hlen' hknd ?_ ?_ ?_ htail
          · intro x hx
            simp only [List.mem_append, List.mem_singleton]
            rintro (hxp | hxg)
            · exact hpre x (List.mem_cons_of_mem k hx) hxp
            · obtain ⟨q, hq, hq2⟩ : ∃ q ∈ gens.zip kols, q.2 = x := by
                have hxm : x ∈ (gens.zip kols).map Prod.snd := by
                  rw [List.map_snd_zip gens kols (le_of_eq hlen'.symm)]
                  exact hx
                rcases List.mem_map.mp hxm with ⟨q, hq, hq2⟩
                exact ⟨q, hq, hq2⟩
              exact (hhead q hq).1 (by rw [hq2, hxg])
          · intro x hx
            exact hsuf x (List.mem_cons_of_mem k hx)
          · intro x hx
            exact hgsuf x (List.mem_cons_of_mem g hx)

/-! ### Loader fold -/

theorem loadStep_keep_some (readCsv : Enc → Delim → Except PErr Table) (t : Table)
    (l : List (Enc × Delim)) : l.foldl (loadStep readCsv) (some t) = some t := by
  induction l with
  | nil => rfl
  | cons a l ih => exact ih

theorem loadStep_first_success (readCsv : Enc → Delim → Except PErr Table)
    (l : List (Enc × Delim)) :
    l.foldl (loadStep readCsv) none
      = (l.filterMap (fun p => (readCsv p.1 p.2).toOption)).head? := by
  induction l with
  | nil => rfl
  | cons a l ih =>
      show l.foldl (loadStep readCsv) ((readCsv a.1 a.2).toOption)
        = ((a :: l).filterMap (fun p => (readCsv p.1 p.2).toOption)).head?
      rw [List.filterMap_cons]
      cases hfa : (readCsv a.1 a.2).toOption with
      | none =>
          simp only [hfa]
          exact ih
      | some t =>
          simp only [hfa, List.head?_cons]
          exact loadStep_keep_some readCsv t l

/-! ### Resolution and grouping lemmas -/

theorem resolveJoinCols_subset (mp : String → Option String) (cols labels : List String) :
    ∀ x ∈ resolveJoinCols mp cols labels, x ∈ cols := by
  intro x hx
  rcases List.mem_filterMap.mp hx with ⟨lbl, _, hsome⟩
  cases h : mp lbl with
  | none => rw [h] at hsome; cases hsome
  | some kol =>
      rw [h] at hsome
      by_cases hc : kol ≠ "" ∧ kol ∈ cols
      · have hkx : some kol = some x := by simpa [hc] using hsome
        exact (Option.some.inj hkx) ▸ hc.2
      · simp [hc] at hsome

theorem resolveJoinCols_length_le (mp : String → Option String) (cols labels : List String) :
    (resolveJoinCols mp cols labels).length ≤ labels.length :=
  List.length_filterMap_le _ _

theorem groupKeys_length (t : Table) (keys : List String) :
    ∀ kv ∈ groupKeys t keys, kv.length = keys.length := by
  intro kv hkv
  rcases List.mem_map.mp ((mem_firstDedup _ _).mp hkv) with ⟨r, _, hr⟩
  rw [← hr]
  simp [keyOf]

theorem groupbySum_eq_some (t : Table) (keys : List String) (metric newName : String)
    (hne : keys ≠ []) (hnd : keys.Nodup) (hsub : ∀ k ∈ keys, k ∈ t.cols)
    (hcols : t.cols.Nodup) (hmet : metric ∈ t.cols) (hnew : newName ∉ keys)
    (hnum : ∀ r ∈ t.rows, intOrNa (valueAt t.cols metric r) = true) :
    groupbySum t keys metric newName
      = some { cols := keys ++ [newName],
               rows := (groupKeys t keys).map
                 (fun kv => kv ++ [Val.int (groupSum t keys metric kv)]) } := by
  unfold groupbySum
  rw [if_pos ⟨hne, hnd, fun k hk => List.count_eq_one_of_mem hcols (hsub k hk),
    List.count_eq_one_of_mem hcols hmet, hnew, hnum⟩]

/-! ### generiekeLabels projections -/

theorem generiekeLabels_proj1 (lc : List String) (la lb ld : List String)
    (hcd : lc.length = ld.length) (hca : lc.length ≤ la.length)
    (hcb : lc.length ≤ lb.length) :
    (generiekeLabels la lb lc ld).map (fun g => g.1) = la.take lc.length := by
  unfold generiekeLabels
  rw [List.map_map]
  exact zip4_map_proj1 lc la lb ld hcd hca hcb

theorem generiekeLabels_proj12 (lc : List String) (la lb ld : List String)
    (hcd : lc.length = ld.length) (hca : lc.length ≤ la.length)
    (hcb : lc.length ≤ lb.length) :
    (generiekeLabels la lb lc ld).map (fun g => (g.1, g.2.1)) = (la.take lc.length).zip lc := by
  unfold generiekeLabels
  rw [List.map_map]
  exact zip4_map_proj13 lc la lb ld hcd hca hcb

theorem generiekeLabels_proj13 (lc : List String) (la lb ld : List String)
    (hcd : lc.length = ld.length) (hca : lc.length ≤ la.length)
    (hcb : lc.length ≤ lb.length) :
    (generiekeLabels la lb lc ld).map (fun g => (g.1, g.2.2)) = (la.take lc.length).zip ld := by
  unfold generiekeLabels
  rw [List.map_map]
  exact zip4_map_proj14 lc la lb ld hcd hca hcb

/-! ### Merge of the two grouped frames -/

theorem dropOnVals_grouped (L : List String) (nn : String) (kv : List Val) (w : Val)
    (hnnL : nn ∉ L) (hkv : kv.length = L.length) :
    dropOnVals (L ++ [nn]) L (kv ++ [w]) = [w] := by
  unfold dropOnVals
  rw [List.zip_append hkv.symm]
  rw [List.filter_append]
  have h1 : (L.zip kv).filter (fun p => p.1 ∉ L) = [] := by
    refine List.filter_eq_nil_iff.mpr ?_
    intro p hp
    simp only [decide_eq_true_eq, Decidable.not_not]
    exact (List.of_mem_zip hp).1
  have h2 : ([nn].zip [w]).filter (fun p => p.1 ∉ L) = [(nn, w)] := by
    simp [hnnL]
  rw [h1, h2]
  rfl

theorem filter_keyrow_single (L : List String) (nn : String) (ns : List Val → Int)
    (hLnd : L.Nodup) (kv : List Val) :
    ∀ (nk : List (List Val)), (∀ kv2 ∈ nk, kv2.length = L.length) → nk.Nodup →
    (nk.map (fun kv2 => kv2 ++ [Val.int (ns kv2)])).filter (fun rr =>
        L.map (fun c => valueAt (L ++ [nn]) c rr) = kv)
      = if kv ∈ nk then [kv ++ [Val.int (ns kv)]] else [] := by
  intro nk
  induction nk with
  | nil => intro _ _; simp
  | cons kv2 nk ih =>
      intro hlen hnd
      rcases List.nodup_cons.mp hnd with ⟨hkv2nk, hnk⟩
      rw [List.map_cons, List.filter_cons]
      have hkey : L.map (fun c => valueAt (L ++ [nn]) c (kv2 ++ [Val.int (ns kv2)])) = kv2 :=
        keyRow_pre L [nn] kv2 [Val.int (ns kv2)] hLnd (hlen kv2 (by simp))
      rw [hkey]
      by_cases heq : kv2 = kv
      · subst heq
        rw [if_pos (by simp)]
        rw [ih (fun x hx => hlen x (List.mem_cons_of_mem kv2 hx)) hnk]
        rw [if_neg hkv2nk, if_pos (List.mem_cons_self kv2 nk)]
      · rw [if_neg (by simpa using fun h : kv2 = kv => heq h)]
        rw [ih (fun x hx => hlen x (List.mem_cons_of_mem kv2 hx)) hnk]
        by_cases hmem : kv ∈ nk
        · rw [if_pos hmem, if_pos (List.mem_cons_of_mem kv2 hmem)]
        · rw [if_neg hmem, if_neg (by
            intro hc
            rcases List.mem_cons.mp hc with h | h
            · exact heq h.symm
            · exact hmem h)]

theorem merge_rows_grouped (L : List String) (tn nn : String)
    (nKeys : List (List Val)) (ts ns : List Val → Int)
    (hLnd : L.Nodup) (hnnL : nn ∉ L)
    (hnlen : ∀ kv ∈ nKeys, kv.length = L.length) (hnnd : nKeys.Nodup) :
    ∀ (tKeys : List (List Val)), (∀ kv ∈ tKeys, kv.length = L.length) →
    (tKeys.map (fun kv => kv ++ [Val.int (ts kv)])).flatMap (fun rl =>
      ((nKeys.map (fun kv => kv ++ [Val.int (ns kv)])).filter (fun rr =>
          L.map (fun c => valueAt (L ++ [nn]) c rr)
            = L.map (fun c => valueAt (L ++ [tn]) c rl))).map
        (fun rr => rl ++ dropOnVals (L ++ [nn]) L rr))
      = (tKeys.filter (fun kv => kv ∈ nKeys)).map
          (fun kv => kv ++ [Val.int (ts kv), Val.int (ns kv)]) := by
  intro tKeys
  induction tKeys with
  | nil => intro _; rfl
  | cons kv tKeys ih =>
      intro hlen
      have hkvlen : kv.length = L.length := hlen kv (by simp)
      rw [List.map_cons, List.flatMap_cons, ih (fun x hx => hlen x (List.mem_cons_of_mem kv hx))]
      have hkeyL : L.map (fun c => valueAt (L ++ [tn]) c (kv ++ [Val.int (ts kv)])) = kv :=
        keyRow_pre L [tn] kv [Val.int (ts kv)] hLnd hkvlen
      rw [hkeyL]
      rw [filter_keyrow_single L nn ns hLnd kv nKeys hnlen hnnd]
      rw [apply_ite (List.map (fun rr =>
        (kv ++ [Val.int (ts kv)]) ++ dropOnVals (L ++ [nn]) L rr))]
      rw [List.map_cons, List.map_nil]
      rw [dropOnVals_grouped L nn kv (Val.int (ns kv)) hnnL hkvlen]
      rw [List.filter_cons]
      by_cases hmem : kv ∈ nKeys
      · rw [if_pos hmem, if_pos (by simpa using hmem), List.map_cons]
        rw [List.append_assoc]
        rfl
      · rw [if_neg hmem, if_neg (by simpa using hmem)]
        rfl

theorem mergeInner_grouped (L : List String) (tn nn : String)
    (tKeys nKeys : List (List Val)) (ts ns : List Val → Int)
    (hLne : L ≠ []) (hLnd : L.Nodup) (htnL : tn ∉ L) (hnnL : nn ∉ L) (htnnn : tn ≠ nn)
    (htlen : ∀ kv ∈ tKeys, kv.length = L.length)
    (hnlen : ∀ kv ∈ nKeys, kv.length = L.length)
    (hnnd : nKeys.Nodup) :
    mergeInner
      { cols := L ++ [tn], rows := tKeys.map (fun kv => kv ++ [Val.int (ts kv)]) }
      { cols := L ++ [nn], rows := nKeys.map (fun kv => kv ++ [Val.int (ns kv)]) } L
      = some { cols := L ++ [tn, nn],
               rows := (tKeys.filter (fun kv => kv ∈ nKeys)).map
                 (fun kv => kv ++ [Val.int (ts kv), Val.int (ns kv)]) } := by
  have hcond : L ≠ [] ∧ L.Nodup
      ∧ (∀ c ∈ L, (L ++ [tn]).count c = 1 ∧ (L ++ [nn]).count c = 1) := by
    refine ⟨hLne, hLnd, fun c hc => ⟨?_, ?_⟩⟩
    · have hctn : c ∉ [tn] := by
        intro hm
        rw [List.mem_singleton] at hm
        exact htnL (hm ▸ hc)
      rw [List.count_append, List.count_eq_one_of_mem hLnd hc,
        List.count_eq_zero_of_not_mem hctn]
    · have hcnn : c ∉ [nn] := by
        intro hm
        rw [List.mem_singleton] at hm
        exact hnnL (hm ▸ hc)
      rw [List.count_append, List.count_eq_one_of_mem hLnd hc,
        List.count_eq_zero_of_not_mem hcnn]
  unfold mergeInner
  rw [if_pos hcond]
  dsimp only
  refine congrArg some ?_
  refine congrArg₂ Table.mk ?_ ?_
  · have h1 : L.map (fun c => if c ∉ L ∧ c ∈ L ++ [nn] then c ++ "_x" else c) = L := by
      refine (List.map_congr_left ?_).trans (List.map_id' L)
      intro c hc
      exact if_neg (fun h => h.1 hc)
    have h2 : [tn].map (fun c => if c ∉ L ∧ c ∈ L ++ [nn] then c ++ "_x" else c) = [tn] := by
      have hneg : ¬(tn ∉ L ∧ tn ∈ L ++ [nn]) := by
        intro h
        rcases List.mem_append.mp h.2 with hm | hm
        · exact htnL hm
        · exact htnnn (by simpa using hm)
      rw [List.map_cons, List.map_nil, if_neg hneg]
    have h3 : ((L ++ [nn]).filter (fun c => c ∉ L)).map
        (fun c => if c ∈ L ++ [tn] then c ++ "_y" else c) = [nn] := by
      rw [List.filter_append]
      rw [List.filter_eq_nil_iff.mpr (fun c hc => by
        simp only [decide_eq_true_eq, Decidable.not_not]
        exact hc)]
      rw [show ([nn].filter (fun c => c ∉ L)) = [nn] by simp [hnnL]]
      have hneg : ¬(nn ∈ L ++ [tn]) := by
        intro h
        rcases List.mem_append.mp h with hm | hm
        · exact hnnL hm
        · have hnt : nn = tn := by simpa using hm
          exact htnnn hnt.symm
      rw [List.nil_append, List.map_cons, List.map_nil, if_neg hneg]
    rw [List.map_append, h1, h2, h3, List.append_assoc]
    rfl
  · exact merge_rows_grouped L tn nn nKeys ts ns hLnd hnnL hnlen hnnd tKeys htlen

/-! ### The percentage stage on a merged grouped frame -/

theorem rows_zip_pcts (rows : List (List Val)) (pc : List Val → Val) :
    (rows.zip (rows.map pc)).map (fun p => p.1 ++ [p.2])
      = rows.map (fun r => r ++ [pc r]) := by
  induction rows with
  | nil => rfl
  | cons r rows ih =>
      rw [List.map_cons, List.zip_cons_cons, List.map_cons, ih, List.map_cons]

theorem addDoorstroomPct_grouped (L : List String) (tKeys : List (List Val))
    (ts ns : List Val → Int) (_hLnd : L.Nodup) (hres : ∀ l ∈ L, l ∉ reservedCols)
    (hlen : ∀ kv ∈ tKeys, kv.length = L.length) :
    addDoorstroomPct
      { cols := L ++ ["teller_doorstromers", "noemer_gediplomeerden"],
        rows := tKeys.map (fun kv => kv ++ [Val.int (ts kv), Val.int (ns kv)]) }
      = Except.ok
          { cols := L ++ reservedCols,
            rows := tKeys.map (fun kv =>
              kv ++ [Val.int (ts kv), Val.int (ns kv),
                pctCell (Val.int (ts kv)) (Val.int (ns kv))]) } := by
  have htnL : "teller_doorstromers" ∉ L := fun h => hres _ h (by simp [reservedCols])
  have hnnL : "noemer_gediplomeerden" ∉ L := fun h => hres _ h (by simp [reservedCols])
  have hpnL : "doorstroompercentage" ∉ L := fun h => hres _ h (by simp [reservedCols])
  have hvt : ∀ kv ∈ tKeys,
      valueAt (L ++ ["teller_doorstromers", "noemer_gediplomeerden"]) "teller_doorstromers"
        (kv ++ [Val.int (ts kv), Val.int (ns kv)]) = Val.int (ts kv) := by
    intro kv hkv
    rw [valueAt_append_not_mem L _ kv _ _ htnL (hlen kv hkv)]
    simp [valueAt, colIdx]
  have hvn : ∀ kv ∈ tKeys,
      valueAt (L ++ ["teller_doorstromers", "noemer_gediplomeerden"]) "noemer_gediplomeerden"
        (kv ++ [Val.int (ts kv), Val.int (ns kv)]) = Val.int (ns kv) := by
    intro kv hkv
    rw [valueAt_append_not_mem L _ kv _ _ hnnL (hlen kv hkv)]
    simp [valueAt, colIdx]
  have hcount_t : (L ++ ["teller_doorstromers", "noemer_gediplomeerden"]).count
      "teller_doorstromers" = 1 := by
    rw [List.count_append, List.count_eq_zero_of_not_mem htnL]
    rfl
  have hcount_n : (L ++ ["teller_doorstromers", "noemer_gediplomeerden"]).count
      "noemer_gediplomeerden" = 1 := by
    rw [List.count_append, List.count_eq_zero_of_not_mem hnnL]
    rfl
  have hcount_p : (L ++ ["teller_doorstromers", "noemer_gediplomeerden"]).count
      "doorstroompercentage" = 0 := by
    rw [List.count_append, List.count_eq_zero_of_not_mem hpnL]
    rfl
  have hnum : ∀ r ∈ tKeys.map (fun kv => kv ++ [Val.int (ts kv), Val.int (ns kv)]),
      intOrNa (valueAt (L ++ ["teller_doorstromers", "noemer_gediplomeerden"])
        "teller_doorstromers" r) = true
      ∧ intOrNa (valueAt (L ++ ["teller_doorstromers", "noemer_gediplomeerden"])
        "noemer_gediplomeerden" r) = true := by
    intro r hr
    rcases List.mem_map.mp hr with ⟨kv, hkv, hrkv⟩
    subst hrkv
    rw [hvt kv hkv, hvn kv hkv]
    exact ⟨rfl, rfl⟩
  unfold addDoorstroomPct
  rw [if_pos ⟨hcount_t, hcount_n, hnum⟩]
  rw [if_pos (by rw [hcount_p])]
  refine congrArg Except.ok ?_
  refine congrArg₂ Table.mk ?_ ?_
  · rw [List.append_assoc]
    rfl
  · rw [rows_zip_pcts]
    rw [List.map_map]
    refine List.map_congr_left ?_
    intro kv hkv
    show (kv ++ [Val.int (ts kv), Val.int (ns kv)])
        ++ [pctCell
          (valueAt (L ++ ["teller_doorstromers", "noemer_gediplomeerden"])
            "teller_doorstromers" (kv ++ [Val.int (ts kv), Val.int (ns kv)]))
          (valueAt (L ++ ["teller_doorstromers", "noemer_gediplomeerden"])
            "noemer_gediplomeerden" (kv ++ [Val.int (ts kv), Val.int (ns kv)]))]
      = kv ++ [Val.int (ts kv), Val.int (ns kv),
          pctCell (Val.int (ts kv)) (Val.int (ns kv))]
    rw [hvt kv hkv, hvn kv hkv, List.append_assoc]
    rfl

/-! ### The whole join stage on grouped frames -/

theorem combineJoinStage_grouped (jlt jln kt kn : List String)
    (tKeys nKeys : List (List Val)) (ts ns : List Val → Int)
    (hklen : kt.length = kn.length) (hkle : kt.length ≤ jlt.length)
    (hknle : kt.length ≤ jln.length)
    (hkne : kt ≠ []) (hktnd : kt.Nodup) (hknnd : kn.Nodup)
    (hLnd : (jlt.take kt.length).Nodup)
    (hLres : ∀ l ∈ jlt.take kt.length, l ∉ reservedCols)
    (htnk : "teller_doorstromers" ∉ kt) (hnnk : "noemer_gediplomeerden" ∉ kn)
    (hpw1 : ((jlt.take kt.length).zip kt).Pairwise (fun p q => p.1 ≠ q.2 ∧ p.2 ≠ q.1))
    (hpw2 : ((jlt.take kt.length).zip kn).Pairwise (fun p q => p.1 ≠ q.2 ∧ p.2 ≠ q.1))
    (htKlen : ∀ kv ∈ tKeys, kv.length = kt.length)
    (hnKlen : ∀ kv ∈ nKeys, kv.length = kt.length)
    (hnKnd : nKeys.Nodup) :
    combineJoinStage
      { cols := kt ++ ["teller_doorstromers"],
        rows := tKeys.map (fun kv => kv ++ [Val.int (ts kv)]) }
      { cols := kn ++ ["noemer_gediplomeerden"],
        rows := nKeys.map (fun kv => kv ++ [Val.int (ns kv)]) }
      jlt jln kt kn
      = Except.ok (some
          { cols := jlt.take kt.length ++ reservedCols,
            rows := (tKeys.filter (fun kv => kv ∈ nKeys)).map
              (fun kv => kv ++ [Val.int (ts kv), Val.int (ns kv),
                pctCell (Val.int (ts kv)) (Val.int (ns kv))]) }) := by
  have hLlen : (jlt.take kt.length).length = kt.length := List.length_take_of_le hkle
  have hLne : jlt.take kt.length ≠ [] := by
    intro h
    apply hkne
    apply List.length_eq_zero.mp
    rw [← hLlen, h]
    rfl
  have htnL : "teller_doorstromers" ∉ jlt.take kt.length :=
    fun h => hLres _ h (by simp [reservedCols])
  have hnnL : "noemer_gediplomeerden" ∉ jlt.take kt.length :=
    fun h => hLres _ h (by simp [reservedCols])
  have htKlenL : ∀ kv ∈ tKeys, kv.length = (jlt.take kt.length).length :=
    fun kv h => (htKlen kv h).trans hLlen.symm
  have hnKlenL : ∀ kv ∈ nKeys, kv.length = (jlt.take kt.length).length :=
    fun kv h => (hnKlen kv h).trans hLlen.symm
  have hrenT : applyRenames
      { cols := kt ++ ["teller_doorstromers"],
        rows := tKeys.map (fun kv => kv ++ [Val.int (ts kv)]) }
      ((jlt.take kt.length).zip kt)
      = { cols := jlt.take kt.length ++ ["teller_doorstromers"],
          rows := tKeys.map (fun kv => kv ++ [Val.int (ts kv)]) } := by
    have h := applyRenames_clean (jlt.take kt.length) kt [] ["teller_doorstromers"]
      (tKeys.map (fun kv => kv ++ [Val.int (ts kv)])) hLlen hktnd
      (by intro x hx; simp)
      (by
        intro x hx
        simp only [List.mem_singleton]
        intro h2
        exact htnk (h2 ▸ hx))
      (by
        intro x hx
        simp only [List.mem_singleton]
        intro h2
        exact htnL (h2 ▸ hx))
      hpw1
    simpa using h
  have hrenN : applyRenames
      { cols := kn ++ ["noemer_gediplomeerden"],
        rows := nKeys.map (fun kv => kv ++ [Val.int (ns kv)]) }
      ((jlt.take kt.length).zip kn)
      = { cols := jlt.take kt.length ++ ["noemer_gediplomeerden"],
          rows := nKeys.map (fun kv => kv ++ [Val.int (ns kv)]) } := by
    have h := applyRenames_clean (jlt.take kt.length) kn [] ["noemer_gediplomeerden"]
      (nKeys.map (fun kv => kv ++ [Val.int (ns kv)])) (hLlen.trans hklen) hknnd
      (by intro x hx; simp)
      (by
        intro x hx
        simp only [List.mem_singleton]
        intro h2
        exact hnnk (h2 ▸ hx))
      (by
        intro x hx
        simp only [List.mem_singleton]
        intro h2
        exact hnnL (h2 ▸ hx))
      hpw2
    simpa using h
  unfold combineJoinStage
  rw [generiekeLabels_proj12 kt jlt jln kn hklen hkle hknle]
  rw [generiekeLabels_proj13 kt jlt jln kn hklen hkle hknle]
  rw [generiekeLabels_proj1 kt jlt jln kn hklen hkle hknle]
  rw [hrenT, hrenN]
  rw [mergeInner_grouped (jlt.take kt.length) "teller_doorstromers" "noemer_gediplomeerden"
    tKeys nKeys ts ns hLne hLnd htnL hnnL (by decide) htKlenL hnKlenL hnKnd]
  show (addDoorstroomPct
      { cols := jlt.take kt.length ++ ["teller_doorstromers", "noemer_gediplomeerden"],
        rows := (tKeys.filter (fun kv => kv ∈ nKeys)).map
          (fun kv => kv ++ [Val.int (ts kv), Val.int (ns kv)]) }).map (fun j => some j)
    = _
  rw [addDoorstroomPct_grouped (jlt.take kt.length) (tKeys.filter (fun kv => kv ∈ nKeys))
    ts ns hLnd hLres (fun kv h => htKlenL kv (List.mem_of_mem_filter h))]
  rfl

/-- Structure of a successful `combine_teller_noemer` run under the
well-formedness conditions: the canonical key columns are the prefix of
the teller join labels of the resolved-key length, and the rows are the
shared group keys with both group sums and the derived percentage. -/
theorem combine_structure (df_t df_n : Table) (mt mn : String → Option String)
    (jlt jln : List String)
    (hclean : cleanCombine df_t df_n mt mn jlt jln)
    (hct : (mt "aantal_ho_instromers").getD "" ≠ "")
    (hcn : (mn "aantal_mbo_gediplomeerden").getD "" ≠ "")
    (hctm : (mt "aantal_ho_instromers").getD "" ∈ df_t.cols)
    (hcnm : (mn "aantal_mbo_gediplomeerden").getD "" ∈ df_n.cols)
    (hkne : resolveJoinCols mt df_t.cols jlt ≠ [])
    (hklen : (resolveJoinCols mt df_t.cols jlt).length
        = (resolveJoinCols mn df_n.cols jln).length) :
    combine_teller_noemer df_t df_n mt mn jlt jln
      = Except.ok (some
          { cols := jlt.take (resolveJoinCols mt df_t.cols jlt).length ++ reservedCols,
            rows := ((groupKeys df_t (resolveJoinCols mt df_t.cols jlt)).filter
                (fun kv => kv ∈ groupKeys df_n (resolveJoinCols mn df_n.cols jln))).map
              (fun kv => kv
                ++ [Val.int (groupSum df_t (resolveJoinCols mt df_t.cols jlt)
                      ((mt "aantal_ho_instromers").getD "") kv),
                    Val.int (groupSum df_n (resolveJoinCols mn df_n.cols jln)
                      ((mn "aantal_mbo_gediplomeerden").getD "") kv),
                    pctCell
                      (Val.int (groupSum df_t (resolveJoinCols mt df_t.cols jlt)
                        ((mt "aantal_ho_instromers").getD "") kv))
                      (Val.int (groupSum df_n (resolveJoinCols mn df_n.cols jln)
                        ((mn "aantal_mbo_gediplomeerden").getD "") kv))]) }) := by
  obtain ⟨hc1, hc2, hktnd, hknnd, hLnd, hnumt, hnumn, hLres, htnk, hnnk, hpw1, hpw2⟩ := hclean
  have hknne : resolveJoinCols mn df_n.cols jln ≠ [] := by
    intro h
    apply hkne
    apply List.length_eq_zero.mp
    rw [hklen, h]
    rfl
  have hgt := groupbySum_eq_some df_t (resolveJoinCols mt df_t.cols jlt)
    ((mt "aantal_ho_instromers").getD "") "teller_doorstromers" hkne hktnd
    (resolveJoinCols_subset mt df_t.cols jlt) hc1 hctm htnk hnumt
  have hgn := groupbySum_eq_some df_n (resolveJoinCols mn df_n.cols jln)
    ((mn "aantal_mbo_gediplomeerden").getD "") "noemer_gediplomeerden" hknne hknnd
    (resolveJoinCols_subset mn df_n.cols jln) hc2 hcnm hnnk hnumn
  unfold combine_teller_noemer
  rw [if_neg (by push_neg; exact ⟨hct, hcn⟩)]
  rw [if_neg (by push_neg; exact ⟨hctm, hcnm⟩)]
  rw [if_neg (by push_neg; exact ⟨fun h => hkne (List.length_eq_zero.mp h), hklen⟩)]
  rw [hgt, hgn]
  show combineJoinStage _ _ jlt jln (resolveJoinCols mt df_t.cols jlt)
      (resolveJoinCols mn df_n.cols jln) = _
  rw [combineJoinStage_grouped jlt jln (resolveJoinCols mt df_t.cols jlt)
    (resolveJoinCols mn df_n.cols jln)
    (groupKeys df_t (resolveJoinCols mt df_t.cols jlt))
    (groupKeys df_n (resolveJoinCols mn df_n.cols jln))
    (groupSum df_t (resolveJoinCols mt df_t.cols jlt) ((mt "aantal_ho_instromers").getD ""))
    (groupSum df_n (resolveJoinCols mn df_n.cols jln) ((mn "aantal_mbo_gediplomeerden").getD ""))
    hklen (resolveJoinCols_length_le mt df_t.cols jlt)
    (by rw [hklen]; exact resolveJoinCols_length_le mn df_n.cols jln)
    hkne hktnd hknnd hLnd hLres htnk hnnk hpw1 hpw2
    (groupKeys_length df_t _)
    (fun kv h => (groupKeys_length df_n _ kv h).trans hklen.symm)
    (nodup_firstDedup _)]

/-! ### Facts about a successful combine run -/

theorem combine_ok_some_conditions (df_t df_n : Table) (mt mn : String → Option String)
    (jlt jln : List String) (J : Table)
    (hrun : combine_teller_noemer df_t df_n mt mn jlt jln = Except.ok (some J)) :
    (mt "aantal_ho_instromers").getD "" ≠ ""
    ∧ (mn "aantal_mbo_gediplomeerden").getD "" ≠ ""
    ∧ (mt "aantal_ho_instromers").getD "" ∈ df_t.cols
    ∧ (mn "aantal_mbo_gediplomeerden").getD "" ∈ df_n.cols
    ∧ resolveJoinCols mt df_t.cols jlt ≠ []
    ∧ (resolveJoinCols mt df_t.cols jlt).length
        = (resolveJoinCols mn df_n.cols jln).length := by
  unfold combine_teller_noemer at hrun
  split_ifs at hrun with h1 h2 h3
  · simp at hrun
  · simp at hrun
  · simp at hrun
  · push_neg at h1 h2 h3
    refine ⟨h1.1, h1.2, h2.1, h2.2, ?_, h3.2⟩
    intro h
    apply h3.1
    rw [h]
    rfl

theorem valueAt_res_teller (L : List String) (kv : List Val) (a b c : Val)
    (hL : "teller_doorstromers" ∉ L) (hlen : kv.length = L.length) :
    valueAt (L ++ reservedCols) "teller_doorstromers" (kv ++ [a, b, c]) = a := by
  rw [valueAt_append_not_mem L reservedCols kv [a, b, c] _ hL hlen]
  simp [valueAt, colIdx, reservedCols]

theorem valueAt_res_noemer (L : List String) (kv : List Val) (a b c : Val)
    (hL : "noemer_gediplomeerden" ∉ L) (hlen : kv.length = L.length) :
    valueAt (L ++ reservedCols) "noemer_gediplomeerden" (kv ++ [a, b, c]) = b := by
  rw [valueAt_append_not_mem L reservedCols kv [a, b, c] _ hL hlen]
  simp [valueAt, colIdx, reservedCols]

theorem valueAt_res_pct (L : List String) (kv : List Val) (a b c : Val)
    (hL : "doorstroompercentage" ∉ L) (hlen : kv.length = L.length) :
    valueAt (L ++ reservedCols) "doorstroompercentage" (kv ++ [a, b, c]) = c := by
  rw [valueAt_append_not_mem L reservedCols kv [a, b, c] _ hL hlen]
  simp [valueAt, colIdx, reservedCols]

theorem resolveJoinCols_length_eq (mp : String → Option String) (cols : List String) :
    ∀ labels : List String,
    (∀ l ∈ labels, (mp l).getD "" ≠ "" ∧ (mp l).getD "" ∈ cols) →
    (resolveJoinCols mp cols labels).length = labels.length := by
  intro labels
  induction labels with
  | nil => intro _; rfl
  | cons l labels ih =>
      intro h
      obtain ⟨hne, hmem⟩ := h l (by simp)
      have hres : resolveJoinCols mp cols (l :: labels)
          = (mp l).getD "" :: resolveJoinCols mp cols labels := by
        unfold resolveJoinCols
        rw [List.filterMap_cons]
        cases hm : mp l with
        | none => rw [hm] at hne; simp at hne
        | some kol =>
            rw [hm] at hne hmem
            simp only [Option.getD_some] at hne hmem
            simp [hne, hmem]
      rw [hres]
      simp only [List.length_cons]
      rw [ih (fun x hx => h x (List.mem_cons_of_mem l hx))]

theorem mem_insertVal (a x : Val) (l : List Val) :
    x ∈ insertVal a l ↔ x = a ∨ x ∈ l := by
  induction l with
  | nil => simp [insertVal]
  | cons b l ih =>
      unfold insertVal
      by_cases h : insertVal.valLE a b
      · simp [h]
      · simp only [h, if_false, Bool.false_eq_true, List.mem_cons, ih]
        tauto

theorem mem_sortVals (x : Val) (l : List Val) : x ∈ sortVals l ↔ x ∈ l := by
  induction l with
  | nil => simp [sortVals]
  | cons a l ih =>
      unfold sortVals
      rw [mem_insertVal, ih, List.mem_cons]

theorem na_not_mem_unieke (df : Table) (c : String) :
    Val.na ∉ uniekeValues df c := by
  intro h
  unfold uniekeValues at h
  rw [mem_sortVals, mem_firstDedup] at h
  rcases List.mem_filter.mp h with ⟨_, hne⟩
  simp at hne

theorem mem_unieke_of_val (df : Table) (c : String) (v : Val) (hv : v ≠ Val.na)
    (hmem : ∃ r ∈ df.rows, valueAt df.cols c r = v) :
    v ∈ uniekeValues df c := by
  obtain ⟨r, hr, hvr⟩ := hmem
  unfold uniekeValues
  rw [mem_sortVals, mem_firstDedup]
  refine List.mem_filter.mpr ⟨?_, by simpa using hv⟩
  exact List.mem_map.mpr ⟨r, hr, hvr⟩

/-! ### Restriction lemmas for the sum invariant -/

theorem getD_map_of_lt {α β : Type} (f : α → β) (l : List α) (i : Nat)
    (h : i < l.length) (d : β) (d2 : α) :
    (l.map f).getD i d = f (l.getD i d2) := by
  rw [List.getD_eq_getElem (l.map f) d (by simpa using h), List.getD_eq_getElem l d2 h,
    List.getElem_map]

theorem valueAt_pre_getD (L rest : List String) (kv rest2 : List Val) (i : Nat)
    (hi : i < L.length) (hd : L.Nodup) (hlen : kv.length = L.length) :
    valueAt (L ++ rest) (L.getD i "") (kv ++ rest2) = kv.getD i Val.na := by
  have hget : L.getD i "" = L.get ⟨i, hi⟩ := by
    rw [List.getD_eq_getElem L "" hi]
    rfl
  rw [hget]
  exact valueAt_pre L rest kv rest2 i hi hd hlen

theorem restrict_key_list_eq (cols K : List String) (I : List Nat) (r : List Val)
    (hI : ∀ i ∈ I, i < K.length) :
    (I.map (fun i => K.getD i "")).map (fun c => valueAt cols c r)
      = I.map (fun i => (keyOf cols K r).getD i Val.na) := by
  rw [List.map_map]
  refine List.map_congr_left ?_
  intro i hi
  show valueAt cols (K.getD i "") r = (K.map (fun c => valueAt cols c r)).getD i Val.na
  rw [getD_map_of_lt (fun c => valueAt cols c r) K i (hI i hi) Val.na ""]

theorem validRows_restrict (t : Table) (K : List String) (I : List Nat) (v : List Val)
    (hI : ∀ i ∈ I, i < K.length) :
    validRows (restrictRows t (I.map (fun i => K.getD i "")) v) K
      = (validRows t K).filter
          (fun r => I.map (fun i => (keyOf t.cols K r).getD i Val.na) = v) := by
  unfold validRows
  rw [show (restrictRows t (I.map (fun i => K.getD i "")) v).cols = t.cols from rfl]
  rw [show (restrictRows t (I.map (fun i => K.getD i "")) v).rows
    = t.rows.filter (fun r =>
        (I.map (fun i => K.getD i "")).map (fun c => valueAt t.cols c r) = v) from rfl]
  rw [List.filter_comm]
  refine List.filter_congr ?_
  intro r _
  rw [restrict_key_list_eq t.cols K I r hI]

theorem groupKeys_restrict (t : Table) (K : List String) (I : List Nat) (v : List Val)
    (hI : ∀ i ∈ I, i < K.length) :
    groupKeys (restrictRows t (I.map (fun i => K.getD i "")) v) K
      = (groupKeys t K).filter (fun kv => I.map (fun i => kv.getD i Val.na) = v) := by
  unfold groupKeys
  rw [validRows_restrict t K I v hI]
  rw [show (restrictRows t (I.map (fun i => K.getD i "")) v).cols = t.cols from rfl]
  have h3 := filter_map_comm (keyOf t.cols K)
    (fun kv => decide (I.map (fun i => kv.getD i Val.na) = v)) (validRows t K)
  rw [← firstDedup_filter]
  congr 1

theorem groupSum_restrict (t : Table) (K : List String) (metric : String) (I : List Nat)
    (v : List Val) (kv : List Val) (hI : ∀ i ∈ I, i < K.length)
    (hkv : I.map (fun i => kv.getD i Val.na) = v) :
    groupSum (restrictRows t (I.map (fun i => K.getD i "")) v) K metric kv
      = groupSum t K metric kv := by
  unfold groupSum
  rw [show (restrictRows t (I.map (fun i => K.getD i "")) v).cols = t.cols from rfl]
  rw [validRows_restrict t K I v hI]
  rw [List.filter_comm]
  refine congrArg List.sum (congrArg (List.map (fun r => intVal (valueAt t.cols metric r))) ?_)
  refine List.filter_eq_self.mpr ?_
  intro r hr
  have hkey : keyOf t.cols K r = kv := of_decide_eq_true (List.mem_filter.mp hr).2
  simp only [decide_eq_true_eq]
  rw [hkey]
  exact hkv

theorem restrict_grouped_rows (L rest : List String) (shared : List (List Val))
    (sfx : List Val → List Val) (I : List Nat) (v : List Val)
    (hLnd : L.Nodup) (hI : ∀ i ∈ I, i < L.length)
    (hlen : ∀ kv ∈ shared, kv.length = L.length) :
    (restrictRows { cols := L ++ rest, rows := shared.map (fun kv => kv ++ sfx kv) }
        (I.map (fun i => L.getD i "")) v).rows
      = (shared.filter (fun kv => I.map (fun i => kv.getD i Val.na) = v)).map
          (fun kv => kv ++ sfx kv) := by
  show (shared.map (fun kv => kv ++ sfx kv)).filter
      (fun r => (I.map (fun i => L.getD i "")).map (fun c => valueAt (L ++ rest) c r) = v)
    = _
  have h3 := filter_map_comm (fun kv => kv ++ sfx kv)
    (fun r => decide ((I.map (fun i => L.getD i "")).map
      (fun c => valueAt (L ++ rest) c r) = v)) shared
  rw [← h3]
  refine congrArg (List.map (fun kv => kv ++ sfx kv)) ?_
  refine List.filter_congr ?_
  intro kv hkv
  have hmap : (I.map (fun i => L.getD i "")).map
      (fun c => valueAt (L ++ rest) c (kv ++ sfx kv))
      = I.map (fun i => kv.getD i Val.na) := by
    rw [List.map_map]
    refine List.map_congr_left ?_
    intro i hi
    show valueAt (L ++ rest) (L.getD i "") (kv ++ sfx kv) = kv.getD i Val.na
    exact valueAt_pre_getD L rest kv (sfx kv) i (hI i hi) hLnd (hlen kv hkv)
  simp only [hmap]

theorem totalInt_grouped_teller (L : List String) (shared : List (List Val))
    (ts ns : List Val → Int) (htnL : "teller_doorstromers" ∉ L)
    (hlen : ∀ kv ∈ shared, kv.length = L.length) :
    totalInt { cols := L ++ reservedCols,
               rows := shared.map (fun kv =>
                 kv ++ [Val.int (ts kv), Val.int (ns kv),
                   pctCell (Val.int (ts kv)) (Val.int (ns kv))]) } "teller_doorstromers"
      = (shared.map ts).sum := by
  unfold totalInt
  rw [List.map_map]
  refine congrArg List.sum ?_
  refine List.map_congr_left ?_
  intro kv hkv
  show intVal (valueAt (L ++ reservedCols) "teller_doorstromers"
    (kv ++ [Val.int (ts kv), Val.int (ns kv),
      pctCell (Val.int (ts kv)) (Val.int (ns kv))])) = ts kv
  rw [valueAt_res_teller L kv _ _ _ htnL (hlen kv hkv)]
  rfl

theorem totalInt_grouped_noemer (L : List String) (shared : List (List Val))
    (ts ns : List Val → Int) (hnnL : "noemer_gediplomeerden" ∉ L)
    (hlen : ∀ kv ∈ shared, kv.length = L.length) :
    totalInt { cols := L ++ reservedCols,
               rows := shared.map (fun kv =>
                 kv ++ [Val.int (ts kv), Val.int (ns kv),
                   pctCell (Val.int (ts kv)) (Val.int (ns kv))]) } "noemer_gediplomeerden"
      = (shared.map ns).sum := by
  unfold totalInt
  rw [List.map_map]
  refine congrArg List.sum ?_
  refine List.map_congr_left ?_
  intro kv hkv
  show intVal (valueAt (L ++ reservedCols) "noemer_gediplomeerden"
    (kv ++ [Val.int (ts kv), Val.int (ns kv),
      pctCell (Val.int (ts kv)) (Val.int (ns kv))])) = ns kv
  rw [valueAt_res_noemer L kv _ _ _ hnnL (hlen kv hkv)]
  rfl

theorem table_eq_of_rows (C : List String) (R1 R2 : List (List Val)) (h : R1 = R2) :
    ({ cols := C, rows := R1 } : Table) = { cols := C, rows := R2 } := by
  rw [h]

/-- Restricting both input tables of a successful clean combine run to a
subgroup of the resolved join keys (positions `I` holding values `v`) and
re-running the pipeline succeeds, and the teller/noemer sums of the result
equal the sums over the corresponding rows of the original joined table. -/
theorem combine_restrict_sums (df_t df_n : Table) (mt mn : String → Option String)
    (jlt jln : List String) (I : List Nat) (v : List Val) (J : Table)
    (hclean : cleanCombine df_t df_n mt mn jlt jln)
    (hI : ∀ i ∈ I, i < (resolveJoinCols mt df_t.cols jlt).length)
    (hrun : combine_teller_noemer df_t df_n mt mn jlt jln = Except.ok (some J)) :
    ∃ J2 : Table,
      combine_teller_noemer (restrictRows df_t (I.map (fun i => (resolveJoinCols mt df_t.cols jlt).getD i "")) v) (restrictRows df_n (I.map (fun i => (resolveJoinCols mn df_n.cols jln).getD i "")) v) mt mn jlt jln = Except.ok (some J2)
      ∧ totalInt J2 "teller_doorstromers"
          = totalInt (restrictRows J (I.map (fun i => (jlt.take (resolveJoinCols mt df_t.cols jlt).length).getD i "")) v) "teller_doorstromers"
      ∧ totalInt J2 "noemer_gediplomeerden"
          = totalInt (restrictRows J (I.map (fun i => (jlt.take (resolveJoinCols mt df_t.cols jlt).length).getD i "")) v) "noemer_gediplomeerden" := by
  obtain ⟨hct, hcn, hctm, hcnm, hkne, hklen⟩ :=
    combine_ok_some_conditions df_t df_n mt mn jlt jln J hrun
  have hstruct := combine_structure df_t df_n mt mn jlt jln hclean hct hcn hctm hcnm hkne hklen
  rw [hrun] at hstruct
  injection hstruct with hstruct1
  injection hstruct1 with hJ
  obtain ⟨hc1, hc2, hktnd, hknnd, hLnd, hnumt, hnumn, hLres, htnk, hnnk, hpw1, hpw2⟩ := hclean
  have hclean2 : cleanCombine (restrictRows df_t (I.map (fun i => (resolveJoinCols mt df_t.cols jlt).getD i "")) v) (restrictRows df_n (I.map (fun i => (resolveJoinCols mn df_n.cols jln).getD i "")) v) mt mn jlt jln := by
    refine ⟨hc1, hc2, hktnd, hknnd, hLnd, ?_, ?_, hLres, htnk, hnnk, hpw1, hpw2⟩
    · intro r hr
      exact hnumt r (List.mem_of_mem_filter hr)
    · intro r hr
      exact hnumn r (List.mem_of_mem_filter hr)
  have hstruct2 := combine_structure (restrictRows df_t (I.map (fun i => (resolveJoinCols mt df_t.cols jlt).getD i "")) v) (restrictRows df_n (I.map (fun i => (resolveJoinCols mn df_n.cols jln).getD i "")) v) mt mn jlt jln hclean2 hct hcn hctm hcnm hkne hklen
  rw [show (restrictRows df_t (I.map (fun i => (resolveJoinCols mt df_t.cols jlt).getD i "")) v).cols = df_t.cols from rfl] at hstruct2
  rw [show (restrictRows df_n (I.map (fun i => (resolveJoinCols mn df_n.cols jln).getD i "")) v).cols = df_n.cols from rfl] at hstruct2
  have hIn : ∀ i ∈ I, i < (resolveJoinCols mn df_n.cols jln).length := by
    intro i hi
    rw [← hklen]
    exact hI i hi
  rw [groupKeys_restrict df_t (resolveJoinCols mt df_t.cols jlt) I v hI] at hstruct2
  rw [groupKeys_restrict df_n (resolveJoinCols mn df_n.cols jln) I v hIn] at hstruct2
  have hshared : ((groupKeys df_t (resolveJoinCols mt df_t.cols jlt)).filter (fun kv => I.map (fun i => kv.getD i Val.na) = v)).filter (fun kv => kv ∈ (groupKeys df_n (resolveJoinCols mn df_n.cols jln)).filter (fun kv => I.map (fun i => kv.getD i Val.na) = v))
      = (((groupKeys df_t (resolveJoinCols mt df_t.cols jlt)).filter (fun kv => kv ∈ (groupKeys df_n (resolveJoinCols mn df_n.cols jln)))).filter (fun kv => I.map (fun i => kv.getD i Val.na) = v)) := by
    refine Eq.trans (List.filter_congr ?_) (List.filter_comm _ _ _)
    intro kv hkv
    have hP : I.map (fun i => kv.getD i Val.na) = v :=
      of_decide_eq_true (List.mem_filter.mp hkv).2
    refine decide_eq_decide.mpr ?_
    constructor
    · exact fun h => List.mem_of_mem_filter h
    · intro h
      exact List.mem_filter.mpr ⟨h, decide_eq_true hP⟩
  rw [hshared] at hstruct2
  have hLlen : (jlt.take (resolveJoinCols mt df_t.cols jlt).length).length = (resolveJoinCols mt df_t.cols jlt).length := by
    rw [List.length_take]
    exact Nat.min_eq_left (resolveJoinCols_length_le mt df_t.cols jlt)
  have hIL : ∀ i ∈ I, i < (jlt.take (resolveJoinCols mt df_t.cols jlt).length).length := by
    intro i hi
    rw [hLlen]
    exact hI i hi
  have htnL : "teller_doorstromers" ∉ (jlt.take (resolveJoinCols mt df_t.cols jlt).length) := by
    intro h
    exact hLres _ h (by simp [reservedCols])
  have hnnL : "noemer_gediplomeerden" ∉ (jlt.take (resolveJoinCols mt df_t.cols jlt).length) := by
    intro h
    exact hLres _ h (by simp [reservedCols])
  have hlenS : ∀ kv ∈ ((groupKeys df_t (resolveJoinCols mt df_t.cols jlt)).filter (fun kv => kv ∈ (groupKeys df_n (resolveJoinCols mn df_n.cols jln)))), kv.length = (jlt.take (resolveJoinCols mt df_t.cols jlt).length).length := by
    intro kv hkv
    rw [groupKeys_length df_t _ kv (List.mem_of_mem_filter hkv), hLlen]
  have hlenSP : ∀ kv ∈ (((groupKeys df_t (resolveJoinCols mt df_t.cols jlt)).filter (fun kv => kv ∈ (groupKeys df_n (resolveJoinCols mn df_n.cols jln)))).filter (fun kv => I.map (fun i => kv.getD i Val.na) = v)), kv.length = (jlt.take (resolveJoinCols mt df_t.cols jlt).length).length := by
    intro kv hkv
    exact hlenS kv (List.mem_of_mem_filter hkv)
  have hresJ : restrictRows J (I.map (fun i => (jlt.take (resolveJoinCols mt df_t.cols jlt).length).getD i "")) v
      = { cols := (jlt.take (resolveJoinCols mt df_t.cols jlt).length) ++ reservedCols, rows := (((groupKeys df_t (resolveJoinCols mt df_t.cols jlt)).filter (fun kv => kv ∈ (groupKeys df_n (resolveJoinCols mn df_n.cols jln)))).filter (fun kv => I.map (fun i => kv.getD i Val.na) = v)).map (fun kv => kv ++ [Val.int (groupSum df_t (resolveJoinCols mt df_t.cols jlt) ((mt "aantal_ho_instromers").getD "") kv), Val.int (groupSum df_n (resolveJoinCols mn df_n.cols jln) ((mn "aantal_mbo_gediplomeerden").getD "") kv), pctCell (Val.int (groupSum df_t (resolveJoinCols mt df_t.cols jlt) ((mt "aantal_ho_instromers").getD "") kv)) (Val.int (groupSum df_n (resolveJoinCols mn df_n.cols jln) ((mn "aantal_mbo_gediplomeerden").getD "") kv))]) } := by
    rw [hJ]
    have hrows : (restrictRows
        { cols := (jlt.take (resolveJoinCols mt df_t.cols jlt).length) ++ reservedCols, rows := ((groupKeys df_t (resolveJoinCols mt df_t.cols jlt)).filter (fun kv => kv ∈ (groupKeys df_n (resolveJoinCols mn df_n.cols jln)))).map (fun kv => kv ++ [Val.int (groupSum df_t (resolveJoinCols mt df_t.cols jlt) ((mt "aantal_ho_instromers").getD "") kv), Val.int (groupSum df_n (resolveJoinCols mn df_n.cols jln) ((mn "aantal_mbo_gediplomeerden").getD "") kv), pctCell (Val.int (groupSum df_t (resolveJoinCols mt df_t.cols jlt) ((mt "aantal_ho_instromers").getD "") kv)) (Val.int (groupSum df_n (resolveJoinCols mn df_n.cols jln) ((mn "aantal_mbo_gediplomeerden").getD "") kv))]) } (I.map (fun i => (jlt.take (resolveJoinCols mt df_t.cols jlt).length).getD i "")) v).rows
        = (((groupKeys df_t (resolveJoinCols mt df_t.cols jlt)).filter (fun kv => kv ∈ (groupKeys df_n (resolveJoinCols mn df_n.cols jln)))).filter (fun kv => I.map (fun i => kv.getD i Val.na) = v)).map (fun kv => kv ++ [Val.int (groupSum df_t (resolveJoinCols mt df_t.cols jlt) ((mt "aantal_ho_instromers").getD "") kv), Val.int (groupSum df_n (resolveJoinCols mn df_n.cols jln) ((mn "aantal_mbo_gediplomeerden").getD "") kv), pctCell (Val.int (groupSum df_t (resolveJoinCols mt df_t.cols jlt) ((mt "aantal_ho_instromers").getD "") kv)) (Val.int (groupSum df_n (resolveJoinCols mn df_n.cols jln) ((mn "aantal_mbo_gediplomeerden").getD "") kv))]) :=
      restrict_grouped_rows (jlt.take (resolveJoinCols mt df_t.cols jlt).length) reservedCols ((groupKeys df_t (resolveJoinCols mt df_t.cols jlt)).filter (fun kv => kv ∈ (groupKeys df_n (resolveJoinCols mn df_n.cols jln))))
        (fun kv => [Val.int (groupSum df_t (resolveJoinCols mt df_t.cols jlt) ((mt "aantal_ho_instromers").getD "") kv), Val.int (groupSum df_n (resolveJoinCols mn df_n.cols jln) ((mn "aantal_mbo_gediplomeerden").getD "") kv), pctCell (Val.int (groupSum df_t (resolveJoinCols mt df_t.cols jlt) ((mt "aantal_ho_instromers").getD "") kv)) (Val.int (groupSum df_n (resolveJoinCols mn df_n.cols jln) ((mn "aantal_mbo_gediplomeerden").getD "") kv))]) I v hLnd hIL hlenS
    exact table_eq_of_rows _ _ _ hrows
  refine ⟨_, hstruct2, ?_, ?_⟩
  · rw [totalInt_grouped_teller (jlt.take (resolveJoinCols mt df_t.cols jlt).length) (((groupKeys df_t (resolveJoinCols mt df_t.cols jlt)).filter (fun kv => kv ∈ (groupKeys df_n (resolveJoinCols mn df_n.cols jln)))).filter (fun kv => I.map (fun i => kv.getD i Val.na) = v))
      (fun kv => (groupSum (restrictRows df_t (I.map (fun i => (resolveJoinCols mt df_t.cols jlt).getD i "")) v) (resolveJoinCols mt df_t.cols jlt) ((mt "aantal_ho_instromers").getD "") kv)) (fun kv => (groupSum (restrictRows df_n (I.map (fun i => (resolveJoinCols mn df_n.cols jln).getD i "")) v) (resolveJoinCols mn df_n.cols jln) ((mn "aantal_mbo_gediplomeerden").getD "") kv)) htnL hlenSP]
    rw [hresJ]
    rw [totalInt_grouped_teller (jlt.take (resolveJoinCols mt df_t.cols jlt).length) (((groupKeys df_t (resolveJoinCols mt df_t.cols jlt)).filter (fun kv => kv ∈ (groupKeys df_n (resolveJoinCols mn df_n.cols jln)))).filter (fun kv => I.map (fun i => kv.getD i Val.na) = v))
      (fun kv => (groupSum df_t (resolveJoinCols mt df_t.cols jlt) ((mt "aantal_ho_instromers").getD "") kv)) (fun kv => (groupSum df_n (resolveJoinCols mn df_n.cols jln) ((mn "aantal_mbo_gediplomeerden").getD "") kv)) htnL hlenSP]
    refine congrArg List.sum (List.map_congr_left ?_)
    intro kv hkv
    have hP : I.map (fun i => kv.getD i Val.na) = v :=
      of_decide_eq_true (List.mem_filter.mp hkv).2
    exact groupSum_restrict df_t (resolveJoinCols mt df_t.cols jlt) ((mt "aantal_ho_instromers").getD "") I v kv hI hP
  · rw [totalInt_grouped_noemer (jlt.take (resolveJoinCols mt df_t.cols jlt).length) (((groupKeys df_t (resolveJoinCols mt df_t.cols jlt)).filter (fun kv => kv ∈ (groupKeys df_n (resolveJoinCols mn df_n.cols jln)))).filter (fun kv => I.map (fun i => kv.getD i Val.na) = v))
      (fun kv => (groupSum (restrictRows df_t (I.map (fun i => (resolveJoinCols mt df_t.cols jlt).getD i "")) v) (resolveJoinCols mt df_t.cols jlt) ((mt "aantal_ho_instromers").getD "") kv)) (fun kv => (groupSum (restrictRows df_n (I.map (fun i => (resolveJoinCols mn df_n.cols jln).getD i "")) v) (resolveJoinCols mn df_n.cols jln) ((mn "aantal_mbo_gediplomeerden").getD "") kv)) hnnL hlenSP]
    rw [hresJ]
    rw [totalInt_grouped_noemer (jlt.take (resolveJoinCols mt df_t.cols jlt).length) (((groupKeys df_t (resolveJoinCols mt df_t.cols jlt)).filter (fun kv => kv ∈ (groupKeys df_n (resolveJoinCols mn df_n.cols jln)))).filter (fun kv => I.map (fun i => kv.getD i Val.na) = v))
      (fun kv => (groupSum df_t (resolveJoinCols mt df_t.cols jlt) ((mt "aantal_ho_instromers").getD "") kv)) (fun kv => (groupSum df_n (resolveJoinCols mn df_n.cols jln) ((mn "aantal_mbo_gediplomeerden").getD "") kv)) hnnL hlenSP]
    refine congrArg List.sum (List.map_congr_left ?_)
    intro kv hkv
    have hP : I.map (fun i => kv.getD i Val.na) = v :=
      of_decide_eq_true (List.mem_filter.mp hkv).2
    exact groupSum_restrict df_n (resolveJoinCols mn df_n.cols jln) ((mn "aantal_mbo_gediplomeerden").getD "") I v kv hIn hP

/-! ### Claim theorems -/

/-- Claim C1, counterexample: with join labels `[jaar, sector_mbo]` where
only `sector_mbo` resolves on both sides, combine succeeds but the
canonical join-key column set of the result is `{jaar}`, not the selected
label set — the first label's name is glued onto the sector columns. -/
theorem claim_C1_counterexample :
    "sector_mbo" ∈ jlEx
    ∧ combine_teller_noemer dfC1T dfC1N mapC1T mapC1N jlEx jlEx = Except.ok (some JC1)
    ∧ "sector_mbo" ∉ joinKeyCols JC1 :=
  ⟨by decide, rfl, by decide⟩

/-- Claim C1, amended: for a successful, well-formed combine run the
canonical join-key columns are the prefix of `joinLabels` of the resolved
column count (renamed position-for-position, as the column list shows);
the set equals the full `joinLabels` exactly when every label resolves on
the teller side (and then, by the equal-count success condition, on both
sides). -/
theorem claim_C1_amended (df_t df_n : Table) (mt mn : String → Option String)
    (jlt jln : List String) (J : Table)
    (hclean : cleanCombine df_t df_n mt mn jlt jln)
    (hrun : combine_teller_noemer df_t df_n mt mn jlt jln = Except.ok (some J)) :
    J.cols = jlt.take (resolveJoinCols mt df_t.cols jlt).length ++ reservedCols
    ∧ joinKeyCols J = jlt.take (resolveJoinCols mt df_t.cols jlt).length
    ∧ ((∀ l ∈ jlt, (mt l).getD "" ≠ "" ∧ (mt l).getD "" ∈ df_t.cols) →
        joinKeyCols J = jlt) := by
  obtain ⟨h1, h2, h3, h4, h5, h6⟩ := combine_ok_some_conditions df_t df_n mt mn jlt jln J hrun
  have hst := combine_structure df_t df_n mt mn jlt jln hclean h1 h2 h3 h4 h5 h6
  rw [hrun] at hst
  have hJ := Option.some.inj (Except.ok.inj hst)
  have hLres : ∀ l ∈ jlt.take (resolveJoinCols mt df_t.cols jlt).length, l ∉ reservedCols :=
    hclean.2.2.2.2.2.2.2.1
  have hcols : J.cols
      = jlt.take (resolveJoinCols mt df_t.cols jlt).length ++ reservedCols := by
    rw [hJ]
  have hkey : joinKeyCols J = jlt.take (resolveJoinCols mt df_t.cols jlt).length := by
    unfold joinKeyCols
    rw [hcols, List.filter_append]
    rw [List.filter_eq_self.mpr (fun l hl => by simpa using hLres l hl)]
    rw [show (reservedCols.filter (fun c => c ∉ reservedCols)) = [] by decide]
    rw [List.append_nil]
  refine ⟨hcols, hkey, ?_⟩
  intro hall
  rw [hkey, resolveJoinCols_length_eq mt df_t.cols jlt hall, List.take_length]

/-- Claim C1, witness. -/
theorem claim_C1_witness :
    JEx.cols = jlEx.take (resolveJoinCols mapT exT.cols jlEx).length ++ reservedCols
    ∧ joinKeyCols JEx = jlEx :=
  ⟨(claim_C1_amended exT exN mapT mapN jlEx jlEx JEx (by decide) rfl).1,
   (claim_C1_amended exT exN mapT mapN jlEx jlEx JEx (by decide) rfl).2.2 (by decide)⟩

/-- Claim C2, counterexample: the label `jaar` resolves to a present
column in the numerator's mapping and is unmapped in the denominator's,
yet combine does not fail — the per-side resolved counts happen to agree
(1 = 1, via `sector_mbo` on the denominator side), and the join silently
proceeds against misaligned columns. -/
theorem claim_C2_counterexample :
    "jaar" ∈ jlEx
    ∧ mapC2T "jaar" = some "Y" ∧ "Y" ∈ dfC1T.cols ∧ mapC2N "jaar" = none
    ∧ combine_teller_noemer dfC1T dfC1N mapC2T mapC2N jlEx jlEx = Except.ok (some JC1) :=
  ⟨by decide, rfl, by decide, rfl, rfl⟩

/-- Claim C2, amended: combine fails (returns none) whenever the two
sides' resolved join-key column counts differ; a label mapped on only one
side causes failure exactly through this count check, not by itself. -/
theorem claim_C2_amended (df_t df_n : Table) (mt mn : String → Option String)
    (jlt jln : List String)
    (h : (resolveJoinCols mt df_t.cols jlt).length
      ≠ (resolveJoinCols mn df_n.cols jln).length) :
    combine_teller_noemer df_t df_n mt mn jlt jln = Except.ok none := by
  unfold combine_teller_noemer
  split_ifs with h1 h2 h3
  · rfl
  · rfl
  · rfl
  · push_neg at h3
    exact absurd h3.2 h

/-- Claim C2, witness. -/
theorem claim_C2_witness :
    combine_teller_noemer exT dfC1N mapT mapC1N jlEx jlEx = Except.ok none :=
  claim_C2_amended exT dfC1N mapT mapC1N jlEx jlEx (by decide)

/-- Claim C3, counterexample: with two join labels mapped to the same
column — legal per the data model — none of the stated failure conditions
holds, yet combine raises (the duplicated group-by key list makes pandas
`reset_index` raise) instead of returning a JoinedTable. -/
theorem claim_C3_counterexample :
    ¬ combineFails exT exN mapC3T mapN jlEx jlEx
    ∧ combine_teller_noemer exT exN mapC3T mapN jlEx jlEx = Except.error () :=
  ⟨by decide, rfl⟩

/-- Claim C3, amended: on well-formed inputs (duplicate-free columns and
resolved key lists, numeric metric columns, no name collisions with the
canonical labels or the reserved derived names) combine returns none
exactly when one of the stated failure conditions holds, and otherwise
returns a JoinedTable; outside that regime it can raise. -/
theorem claim_C3_amended (df_t df_n : Table) (mt mn : String → Option String)
    (jlt jln : List String)
    (hclean : cleanCombine df_t df_n mt mn jlt jln) :
    (combine_teller_noemer df_t df_n mt mn jlt jln = Except.ok none
      ↔ combineFails df_t df_n mt mn jlt jln)
    ∧ (¬ combineFails df_t df_n mt mn jlt jln →
        ∃ J : Table, combine_teller_noemer df_t df_n mt mn jlt jln = Except.ok (some J)) := by
  have hsome : ¬ combineFails df_t df_n mt mn jlt jln →
      ∃ J : Table, combine_teller_noemer df_t df_n mt mn jlt jln = Except.ok (some J) := by
    intro hnf
    unfold combineFails at hnf
    push_neg at hnf
    obtain ⟨h1, h2, h3, h4, h5, h6⟩ := hnf
    exact ⟨_, combine_structure df_t df_n mt mn jlt jln hclean h1 h2 h3 h4 h5 h6⟩
  refine ⟨⟨?_, ?_⟩, hsome⟩
  · intro hnone
    by_contra hnf
    obtain ⟨J, hJ⟩ := hsome hnf
    rw [hJ] at hnone
    simp at hnone
  · intro hf
    unfold combine_teller_noemer
    split_ifs with h1 h2 h3
    · rfl
    · rfl
    · rfl
    · push_neg at h1 h2 h3
      exfalso
      unfold combineFails at hf
      rcases hf with h | h | h | h | h | h
      · exact h1.1 h
      · exact h1.2 h
      · exact h h2.1
      · exact h h2.2
      · apply h3.1
        rw [h]
        rfl
      · exact h h3.2

/-- Claim C3, witness. -/
theorem claim_C3_witness :
    ∃ J : Table, combine_teller_noemer exT exN mapT mapN jlEx jlEx = Except.ok (some J) :=
  (claim_C3_amended exT exN mapT mapN jlEx jlEx (by decide)).2 (by decide)

/-- Claim C7, counterexample: a file readable only as UTF-16 — the
spec-described cross of encodings and delimiters finds it (and the
denominator loader does), but the numerator loader never tries UTF-16 and
ends in an uncaught decoding error from its latin-1 fallback. -/
theorem claim_C7_counterexample :
    load_teller readC7 = Except.error PErr.unicodeError
    ∧ specLoaderFirstSuccess readC7 = some dfC1T
    ∧ load_noemer readC7 = some dfC1T :=
  ⟨rfl, rfl, rfl⟩

/-- Claim C7, amended: the denominator loader tries the full cross of the
common encodings and delimiters in deterministic order and accepts the
first successful parse (no table at all when every combination fails);
the numerator loader instead tries only utf-8 with comma, falling back
once to latin-1 with comma on a decoding error or to a semicolon on a
parser error, the fallback's own failure being uncaught. -/
theorem claim_C7_amended :
    (∀ readCsv : Enc → Delim → Except PErr Table,
      load_noemer readCsv = specLoaderFirstSuccess readCsv)
    ∧ (∀ (readCsv : Enc → Delim → Except PErr Table) (t : Table),
        readCsv Enc.utf8 Delim.comma = Except.ok t → load_teller readCsv = Except.ok t)
    ∧ (∀ readCsv : Enc → Delim → Except PErr Table,
        readCsv Enc.utf8 Delim.comma = Except.error PErr.unicodeError →
        load_teller readCsv = readCsv Enc.latin1 Delim.comma)
    ∧ (∀ readCsv : Enc → Delim → Except PErr Table,
        readCsv Enc.utf8 Delim.comma = Except.error PErr.parserError →
        load_teller readCsv = readCsv Enc.utf8 Delim.semicolon) := by
  refine ⟨?_, ?_, ?_, ?_⟩
  · intro readCsv
    unfold load_noemer specLoaderFirstSuccess
    exact loadStep_first_success readCsv encSepCombos
  · intro readCsv t h
    unfold load_teller
    rw [h]
  · intro readCsv h
    unfold load_teller
    rw [h]
  · intro readCsv h
    unfold load_teller
    rw [h]

/-- Claim C7, witness. -/
theorem claim_C7_witness :
    load_noemer readC7b = specLoaderFirstSuccess readC7b
    ∧ load_teller readC7b = readC7b Enc.latin1 Delim.comma :=
  ⟨claim_C7_amended.1 readC7b, claim_C7_amended.2.2.1 readC7b rfl⟩

/-- Claim C8: the categorical filter leaves the table unchanged when the
column is absent or the selection is empty, and with a non-empty selection
every surviving row's value in the column is a member of the selection. -/
theorem claim_C8 (df : Table) (kolomnaam : String) (selectie : List Val) :
    (kolomnaam ∉ df.cols → apply_filter df kolomnaam selectie = df)
    ∧ (selectie = [] → apply_filter df kolomnaam selectie = df)
    ∧ (kolomnaam ∈ df.cols → selectie ≠ [] →
        ∀ r ∈ (apply_filter df kolomnaam selectie).rows,
          valueAt df.cols kolomnaam r ∈ selectie) := by
  refine ⟨?_, ?_, ?_⟩
  · intro h
    unfold apply_filter
    rw [if_pos h]
  · intro h
    subst h
    unfold apply_filter
    by_cases h1 : kolomnaam ∉ df.cols
    · rw [if_pos h1]
    · rw [if_neg h1, if_neg (by simp)]
  · intro hmem hne r hr
    unfold apply_filter at hr
    rw [if_neg (by simp [hmem]), if_pos hne] at hr
    exact of_decide_eq_true (List.mem_filter.mp hr).2

/-- Claim C8, witness. -/
theorem claim_C8_witness :
    apply_filter dfC10b "c" [] = dfC10b
    ∧ ∀ r ∈ (apply_filter dfC10b "c" [Val.int 1]).rows,
        valueAt dfC10b.cols "c" r ∈ [Val.int 1] :=
  ⟨(claim_C8 dfC10b "c" []).2.1 rfl,
   fun r hr => (claim_C8 dfC10b "c" [Val.int 1]).2.2 (by decide) (by decide) r hr⟩

/-- Claim C9: `suggest_default` is a pure function of the label and the
column list that returns the first column (in original column order)
hit by one of the substring/keyword rules, and nothing when no rule
matches any column. -/
theorem claim_C9 (label : String) (cols : List String) :
    (∀ c, suggest_default label cols = some c →
      ruleHit label c = true
      ∧ ∃ i, ∃ hi : i < cols.length, cols.get ⟨i, hi⟩ = c
          ∧ ∀ j, ∀ hj : j < cols.length, j < i →
              ruleHit label (cols.get ⟨j, hj⟩) = false)
    ∧ (suggest_default label cols = none ↔ ∀ c ∈ cols, ruleHit label c = false) := by
  induction cols with
  | nil =>
      constructor
      · intro c hc
        cases hc
      · simp [suggest_default]
  | cons c0 rest ih =>
      by_cases h0 : ruleHit label c0
      · constructor
        · intro c hc
          have hc0 : c0 = c := by
            have h2 : some c0 = some c := by simpa [suggest_default, h0] using hc
            exact Option.some.inj h2
          subst hc0
          refine ⟨h0, 0, by simp, rfl, ?_⟩
          intro j hj hj0
          omega
        · constructor
          · intro hnone
            exfalso
            have h2 : some c0 = none := by rw [suggest_default, h0] at hnone; exact hnone
            cases h2
          · intro hall
            exfalso
            have h2 := hall c0 (by simp)
            rw [h0] at h2
            cases h2
      · have hs : suggest_default label (c0 :: rest) = suggest_default label rest := by
          simp [suggest_default, h0]
        constructor
        · intro c hc
          rw [hs] at hc
          obtain ⟨hrule, i, hi, hget, hbefore⟩ := ih.1 c hc
          refine ⟨hrule, i + 1, by simpa using Nat.succ_lt_succ hi, hget, ?_⟩
          intro j hj hji
          cases j with
          | zero => simpa using h0
          | succ jj =>
              have hjj : jj < rest.length := by
                simp only [List.length_cons] at hj
                omega
              exact hbefore jj hjj (by omega)
        · rw [hs]
          constructor
          · intro hnone c hc
            rcases List.mem_cons.mp hc with h | h
            · subst h
              simpa using h0
            · exact (ih.2.mp hnone) c h
          · intro hall
            exact ih.2.mpr (fun c hc => hall c (List.mem_cons_of_mem c0 hc))

/-- Claim C9, witness. -/
theorem claim_C9_witness :
    ruleHit "jaar" "Jaartal" = true
    ∧ ∃ i, ∃ hi : i < (["kolom", "Jaartal"] : List String).length,
        (["kolom", "Jaartal"] : List String).get ⟨i, hi⟩ = "Jaartal"
        ∧ ∀ j, ∀ hj : j < (["kolom", "Jaartal"] : List String).length, j < i →
            ruleHit "jaar" ((["kolom", "Jaartal"] : List String).get ⟨j, hj⟩) = false :=
  (claim_C9 "jaar" ["kolom", "Jaartal"]).1 "Jaartal" rfl

/-- Claim C10, counterexample: a present column whose values are all
missing — the distinct non-missing value set is empty, so the default
"select all" selection is empty and the filter is the identity; no
missing-value row is dropped. -/
theorem claim_C10_counterexample :
    "c" ∈ dfC10.cols
    ∧ (∃ r ∈ dfC10.rows, valueAt dfC10.cols "c" r = Val.na)
    ∧ apply_filter dfC10 "c" (uniekeValues dfC10 "c") = dfC10 := by
  refine ⟨by decide, ⟨[Val.na], by decide, by decide⟩, by decide⟩

/-- Claim C10, amended: when the column additionally holds at least one
non-missing value, filtering with the full distinct non-missing value set
(the UI default) is not the identity: it strictly shrinks the row set and
drops every row whose value in the column is missing. -/
theorem claim_C10_amended (df : Table) (c : String)
    (hc : c ∈ df.cols)
    (hna : ∃ r ∈ df.rows, valueAt df.cols c r = Val.na)
    (hval : ∃ r ∈ df.rows, valueAt df.cols c r ≠ Val.na) :
    apply_filter df c (uniekeValues df c) ≠ df
    ∧ (apply_filter df c (uniekeValues df c)).rows.length < df.rows.length
    ∧ ∀ r ∈ (apply_filter df c (uniekeValues df c)).rows,
        valueAt df.cols c r ≠ Val.na := by
  obtain ⟨r0, hr0, hv0⟩ := hna
  obtain ⟨r1, hr1, hv1⟩ := hval
  have hne : uniekeValues df c ≠ [] := by
    intro h
    have h2 := mem_unieke_of_val df c _ hv1 ⟨r1, hr1, rfl⟩
    rw [h] at h2
    cases h2
  have happ : apply_filter df c (uniekeValues df c)
      = { cols := df.cols,
          rows := df.rows.filter (fun r => valueAt df.cols c r ∈ uniekeValues df c) } := by
    unfold apply_filter
    rw [if_neg (by simp [hc]), if_pos hne]
  have hlen : (df.rows.filter
      (fun r => valueAt df.cols c r ∈ uniekeValues df c)).length < df.rows.length := by
    refine length_filter_lt _ df.rows r0 hr0 ?_
    simp only [decide_eq_false_iff_not]
    rw [hv0]
    exact na_not_mem_unieke df c
  refine ⟨?_, ?_, ?_⟩
  · intro heq
    rw [happ] at heq
    have h2 : df.rows.filter (fun r => valueAt df.cols c r ∈ uniekeValues df c) = df.rows :=
      congrArg Table.rows heq
    rw [h2] at hlen
    exact lt_irrefl _ hlen
  · rw [happ]
    exact hlen
  · intro r hr
    rw [happ] at hr
    have h2 := (List.mem_filter.mp hr).2
    intro hna2
    rw [hna2] at h2
    exact na_not_mem_unieke df c (of_decide_eq_true h2)

/-- Claim C10, witness. -/
theorem claim_C10_witness :
    apply_filter dfC10b "c" (uniekeValues dfC10b "c") ≠ dfC10b
    ∧ (apply_filter dfC10b "c" (uniekeValues dfC10b "c")).rows.length < dfC10b.rows.length
    ∧ ∀ r ∈ (apply_filter dfC10b "c" (uniekeValues dfC10b "c")).rows,
        valueAt dfC10b.cols "c" r ≠ Val.na :=
  claim_C10_amended dfC10b "c" (by decide) ⟨[Val.na], by decide, by decide⟩
    ⟨[Val.int 1], by decide, by decide⟩

/-- Claim C5: in a joined table, a row whose summed denominator is
exactly zero carries a missing percentage (not infinity, zero, or an
error), a row with non-zero denominator carries 100 × teller / noemer,
and a key combination present in both aggregates with zero denominator
sum does survive the join with a missing percentage. -/
theorem claim_C5 (df_t df_n : Table) (mt mn : String → Option String)
    (jlt jln : List String) (J : Table)
    (hclean : cleanCombine df_t df_n mt mn jlt jln)
    (hrun : combine_teller_noemer df_t df_n mt mn jlt jln = Except.ok (some J)) :
    (∀ r ∈ J.rows,
      (valueAt J.cols "noemer_gediplomeerden" r = Val.int 0 →
        valueAt J.cols "doorstroompercentage" r = Val.na)
      ∧ (∀ tv nv : Int, valueAt J.cols "teller_doorstromers" r = Val.int tv →
          valueAt J.cols "noemer_gediplomeerden" r = Val.int nv → nv ≠ 0 →
          valueAt J.cols "doorstroompercentage" r = Val.rat (100 * tv / nv)))
    ∧ (∀ kv, kv ∈ groupKeys df_t (resolveJoinCols mt df_t.cols jlt) →
        kv ∈ groupKeys df_n (resolveJoinCols mn df_n.cols jln) →
        groupSum df_n (resolveJoinCols mn df_n.cols jln)
          ((mn "aantal_mbo_gediplomeerden").getD "") kv = 0 →
        ∃ r ∈ J.rows,
          (jlt.take (resolveJoinCols mt df_t.cols jlt).length).map
            (fun c => valueAt J.cols c r) = kv
          ∧ valueAt J.cols "doorstroompercentage" r = Val.na) := by
  obtain ⟨h1, h2, h3, h4, h5, h6⟩ := combine_ok_some_conditions df_t df_n mt mn jlt jln J hrun
  have hst := combine_structure df_t df_n mt mn jlt jln hclean h1 h2 h3 h4 h5 h6
  rw [hrun] at hst
  have hJ := Option.some.inj (Except.ok.inj hst)
  subst hJ
  have hLres : ∀ l ∈ jlt.take (resolveJoinCols mt df_t.cols jlt).length, l ∉ reservedCols :=
    hclean.2.2.2.2.2.2.2.1
  have hLnd : (jlt.take (resolveJoinCols mt df_t.cols jlt).length).Nodup :=
    hclean.2.2.2.2.1
  have htnL : "teller_doorstromers" ∉ jlt.take (resolveJoinCols mt df_t.cols jlt).length :=
    fun h => hLres _ h (by simp [reservedCols])
  have hnnL : "noemer_gediplomeerden" ∉ jlt.take (resolveJoinCols mt df_t.cols jlt).length :=
    fun h => hLres _ h (by simp [reservedCols])
  have hpnL : "doorstroompercentage" ∉ jlt.take (resolveJoinCols mt df_t.cols jlt).length :=
    fun h => hLres _ h (by simp [reservedCols])
  have hLlen : (jlt.take (resolveJoinCols mt df_t.cols jlt).length).length
      = (resolveJoinCols mt df_t.cols jlt).length :=
    List.length_take_of_le (resolveJoinCols_length_le mt df_t.cols jlt)
  have hkvlen : ∀ kv, kv ∈ (groupKeys df_t (resolveJoinCols mt df_t.cols jlt)).filter
      (fun kv => kv ∈ groupKeys df_n (resolveJoinCols mn df_n.cols jln)) →
      kv.length = (jlt.take (resolveJoinCols mt df_t.cols jlt).length).length := by
    intro kv hkv
    rw [hLlen]
    exact groupKeys_length df_t _ kv (List.mem_of_mem_filter hkv)
  constructor
  · intro r hr
    rcases List.mem_map.mp hr with ⟨kv, hkv, hrkv⟩
    subst hrkv
    have hlen := hkvlen kv hkv
    constructor
    · intro hzero
      rw [valueAt_res_noemer _ kv _ _ _ hnnL hlen] at hzero
      have hns : groupSum df_n (resolveJoinCols mn df_n.cols jln)
          ((mn "aantal_mbo_gediplomeerden").getD "") kv = 0 := by
        injection hzero
      rw [valueAt_res_pct _ kv _ _ _ hpnL hlen, hns]
      rfl
    · intro tv nv htv hnv hnvne
      rw [valueAt_res_teller _ kv _ _ _ htnL hlen] at htv
      rw [valueAt_res_noemer _ kv _ _ _ hnnL hlen] at hnv
      have hts : groupSum df_t (resolveJoinCols mt df_t.cols jlt)
          ((mt "aantal_ho_instromers").getD "") kv = tv := by injection htv
      have hns : groupSum df_n (resolveJoinCols mn df_n.cols jln)
          ((mn "aantal_mbo_gediplomeerden").getD "") kv = nv := by injection hnv
      rw [valueAt_res_pct _ kv _ _ _ hpnL hlen, hts, hns]
      unfold pctCell
      rw [if_neg (by simp [hnvne])]
      show Val.rat ((tv : ℚ) / (nv : ℚ) * 100) = Val.rat (100 * tv / nv)
      congr 1
      ring
  · intro kv hkt hkn hzero
    have hshared : kv ∈ (groupKeys df_t (resolveJoinCols mt df_t.cols jlt)).filter
        (fun kv => kv ∈ groupKeys df_n (resolveJoinCols mn df_n.cols jln)) :=
      List.mem_filter.mpr ⟨hkt, by simpa using hkn⟩
    have hlen := hkvlen kv hshared
    refine ⟨_, List.mem_map.mpr ⟨kv, hshared, rfl⟩, ?_, ?_⟩
    · exact keyRow_pre _ reservedCols kv _ hLnd hlen
    · rw [valueAt_res_pct _ kv _ _ _ hpnL hlen, hzero]
      rfl

/-- Claim C5, witness: the Techniek 2021 row of the example join has a
zero summed denominator, and its percentage is missing. -/
theorem claim_C5_witness :
    valueAt JEx.cols "doorstroompercentage"
      [Val.int 2021, Val.str "Techniek", Val.int 30, Val.int 0, Val.na] = Val.na :=
  ((claim_C5 exT exN mapT mapN jlEx jlEx JEx (by decide) rfl).1
    [Val.int 2021, Val.str "Techniek", Val.int 30, Val.int 0, Val.na] (by decide)).1
    (by decide)

/-- Claim C6: the join is an inner join — a key combination appears in
the joined table exactly when it is a group key of both aggregated sides;
when no key combination is shared combine still returns a table (the
key and measure columns are present, the row set is empty). -/
theorem claim_C6 (df_t df_n : Table) (mt mn : String → Option String)
    (jlt jln : List String) (J : Table)
    (hclean : cleanCombine df_t df_n mt mn jlt jln)
    (hrun : combine_teller_noemer df_t df_n mt mn jlt jln = Except.ok (some J)) :
    J.cols = jlt.take (resolveJoinCols mt df_t.cols jlt).length ++ reservedCols
    ∧ (∀ kv, (∃ r ∈ J.rows,
        (jlt.take (resolveJoinCols mt df_t.cols jlt).length).map
          (fun c => valueAt J.cols c r) = kv)
      ↔ kv ∈ groupKeys df_t (resolveJoinCols mt df_t.cols jlt)
        ∧ kv ∈ groupKeys df_n (resolveJoinCols mn df_n.cols jln))
    ∧ ((∀ kv, ¬(kv ∈ groupKeys df_t (resolveJoinCols mt df_t.cols jlt)
        ∧ kv ∈ groupKeys df_n (resolveJoinCols mn df_n.cols jln))) → J.rows = []) := by
  obtain ⟨h1, h2, h3, h4, h5, h6⟩ := combine_ok_some_conditions df_t df_n mt mn jlt jln J hrun
  have hst := combine_structure df_t df_n mt mn jlt jln hclean h1 h2 h3 h4 h5 h6
  rw [hrun] at hst
  have hJ := Option.some.inj (Except.ok.inj hst)
  subst hJ
  have hLnd : (jlt.take (resolveJoinCols mt df_t.cols jlt).length).Nodup :=
    hclean.2.2.2.2.1
  have hLlen : (jlt.take (resolveJoinCols mt df_t.cols jlt).length).length
      = (resolveJoinCols mt df_t.cols jlt).length :=
    List.length_take_of_le (resolveJoinCols_length_le mt df_t.cols jlt)
  refine ⟨rfl, ?_, ?_⟩
  · intro kv
    constructor
    · rintro ⟨r, hr, hkey⟩
      rcases List.mem_map.mp hr with ⟨kv2, hkv2, hrkv⟩
      subst hrkv
      have hlen : kv2.length = (jlt.take (resolveJoinCols mt df_t.cols jlt).length).length := by
        rw [hLlen]
        exact groupKeys_length df_t _ kv2 (List.mem_of_mem_filter hkv2)
      rw [keyRow_pre _ reservedCols kv2 _ hLnd hlen] at hkey
      subst hkey
      exact ⟨List.mem_of_mem_filter hkv2, by
        have := (List.mem_filter.mp hkv2).2
        exact of_decide_eq_true this⟩
    · rintro ⟨hkt, hkn⟩
      have hshared : kv ∈ (groupKeys df_t (resolveJoinCols mt df_t.cols jlt)).filter
          (fun kv => kv ∈ groupKeys df_n (resolveJoinCols mn df_n.cols jln)) :=
        List.mem_filter.mpr ⟨hkt, by simpa using hkn⟩
      have hlen : kv.length = (jlt.take (resolveJoinCols mt df_t.cols jlt).length).length := by
        rw [hLlen]
        exact groupKeys_length df_t _ kv hkt
      exact ⟨_, List.mem_map.mpr ⟨kv, hshared, rfl⟩,
        keyRow_pre _ reservedCols kv _ hLnd hlen⟩
  · intro hnone
    show ((groupKeys df_t (resolveJoinCols mt df_t.cols jlt)).filter
        (fun kv => kv ∈ groupKeys df_n (resolveJoinCols mn df_n.cols jln))).map _ = []
    rw [List.filter_eq_nil_iff.mpr ?_]
    · rfl
    · intro kv hkv
      intro hdec
      exact hnone kv ⟨hkv, of_decide_eq_true hdec⟩

/-- Claim C6, witness: on input tables sharing no key combination
(`dfC1T` keyed 1 against `dfC6N` keyed 2) combine returns an empty but
well-formed joined table. -/
theorem claim_C6_witness :
    JC6.cols = jlEx.take (resolveJoinCols mapC1T dfC1T.cols jlEx).length ++ reservedCols
    ∧ JC6.rows = [] :=
  ⟨(claim_C6 dfC1T dfC6N mapC1T mapC1N jlEx jlEx JC6 (by decide) rfl).1,
   (claim_C6 dfC1T dfC6N mapC1T mapC1N jlEx jlEx JC6 (by decide) rfl).2.2 (by
     intro kv hcon
     have h1 : kv = [Val.int 1] := by
       have h3 := hcon.1
       rw [show groupKeys dfC1T (resolveJoinCols mapC1T dfC1T.cols jlEx)
         = [[Val.int 1]] from rfl] at h3
       simpa using h3
     have h2 := hcon.2
     rw [h1, show groupKeys dfC6N (resolveJoinCols mapC1N dfC6N.cols jlEx)
       = [[Val.int 2]] from rfl] at h2
     simp at h2)⟩


/-- C4: For every joined table produced by a clean `combine_teller_noemer`
run and every subgroup of its rows (fixing the values `v` at key positions
`I`), re-running `combine_teller_noemer` on the correspondingly restricted
input tables succeeds and yields the same teller/noemer sums as the
subgroup rows of the original joined table, so the percentage recomputed
as 100 x summed teller / summed noemer agrees between the two routes;
concretely on `exT`/`exN` the regrouped overall percentage is 100/3 while
the naive average of the per-row percentages is 125/6, and the two differ. -/
theorem claim_C4 :
    (∀ (df_t df_n : Table) (mt mn : String → Option String) (jlt jln : List String)
        (I : List Nat) (v : List Val) (J : Table),
      cleanCombine df_t df_n mt mn jlt jln →
      (∀ i ∈ I, i < (resolveJoinCols mt df_t.cols jlt).length) →
      combine_teller_noemer df_t df_n mt mn jlt jln = Except.ok (some J) →
      ∃ J2 : Table,
        combine_teller_noemer
            (restrictRows df_t (I.map (fun i =>
              (resolveJoinCols mt df_t.cols jlt).getD i "")) v)
            (restrictRows df_n (I.map (fun i =>
              (resolveJoinCols mn df_n.cols jln).getD i "")) v)
            mt mn jlt jln = Except.ok (some J2)
        ∧ pct100 (totalInt J2 "teller_doorstromers") (totalInt J2 "noemer_gediplomeerden")
            = pct100
                (totalInt (restrictRows J (I.map (fun i =>
                  (jlt.take (resolveJoinCols mt df_t.cols jlt).length).getD i "")) v)
                  "teller_doorstromers")
                (totalInt (restrictRows J (I.map (fun i =>
                  (jlt.take (resolveJoinCols mt df_t.cols jlt).length).getD i "")) v)
                  "noemer_gediplomeerden"))
    ∧ combine_teller_noemer exT exN mapT mapN jlEx jlEx = Except.ok (some JEx)
    ∧ pct100 (totalInt JEx "teller_doorstromers") (totalInt JEx "noemer_gediplomeerden")
        = Val.rat ((100 : ℚ) / 3)
    ∧ naiveAvgPct JEx = some ((125 : ℚ) / 6)
    ∧ ((100 : ℚ) / 3) ≠ ((125 : ℚ) / 6) := by
  refine ⟨?_, ?_, ?_, ?_, ?_⟩
  · intro df_t df_n mt mn jlt jln I v J hclean hI hrun
    obtain ⟨J2, h1, h2, h3⟩ := combine_restrict_sums df_t df_n mt mn jlt jln I v J hclean hI hrun
    exact ⟨J2, h1, by rw [h2, h3]⟩
  · rfl
  · rw [show totalInt JEx "teller_doorstromers" = 80 from by decide,
      show totalInt JEx "noemer_gediplomeerden" = 240 from by decide]
    unfold pct100
    rw [if_neg (by decide : ¬(240 : Int) = 0)]
    congr 1
    norm_num
  · simp [naiveAvgPct, JEx, valueAt, colIdx]
    norm_num
  · norm_num

/-- Concrete instance of the C4 sum invariant: restricting `exT`/`exN` to
the subgroup jaar = 2021 and re-running combine reproduces the percentage
recomputed from the corresponding rows of `JEx`. -/
theorem claim_C4_witness :
    ∃ J2 : Table,
      combine_teller_noemer
          (restrictRows exT ([0].map (fun i =>
            (resolveJoinCols mapT exT.cols jlEx).getD i "")) [Val.int 2021])
          (restrictRows exN ([0].map (fun i =>
            (resolveJoinCols mapN exN.cols jlEx).getD i "")) [Val.int 2021])
          mapT mapN jlEx jlEx = Except.ok (some J2)
      ∧ pct100 (totalInt J2 "teller_doorstromers") (totalInt J2 "noemer_gediplomeerden")
          = pct100
              (totalInt (restrictRows JEx ([0].map (fun i =>
                (jlEx.take (resolveJoinCols mapT exT.cols jlEx).length).getD i ""))
                [Val.int 2021]) "teller_doorstromers")
              (totalInt (restrictRows JEx ([0].map (fun i =>
                (jlEx.take (resolveJoinCols mapT exT.cols jlEx).length).getD i ""))
                [Val.int 2021]) "noemer_gediplomeerden") :=
  claim_C4.1 exT exN mapT mapN jlEx jlEx [0] [Val.int 2021] JEx
    (by decide) (by decide) rfl
